import Mathlib

/-!
# JSEngine-Simulator: a shallow embedding of the engine and its actors

The C++ program runs three actor threads (Scheduler, ApiManager, EventLoop)
that exchange `Task` messages through `TaskQueue`s and look callbacks up in a
shared `ClosureHeap`.  This development embeds the data types of `Task.h`,
`Callback.h`, `TaskQueue.h`, `ClosureHeap.h` and the loop bodies of `main.cpp`
as pure functions over one `Engine` record holding every piece of state the
threads share.

Conventions of the embedding
* `long long` values are `Int`; the two counters that are incremented, the
  atomic id counter of `Task::generate_id` and `ClosureHeap::m_next_id`, wrap
  in two's complement (`wrap64`).
* `std::any` payloads only ever hold a `std::string` in this program, so
  `Any` is `Option String` (`none` is the empty `std::any`).
* `std::map` / `std::unordered_map` are association lists read through
  `mapFind`, `mapErase`, `mapAssign`.
* a thrown, uncaught `std::runtime_error` is the `Outcome.terminated` result.
* every `while (!queue.isEmpty())` loop is a fuel-indexed function that
  re-tests the queue on each iteration; the caller supplies the queue length
  as fuel, and the theorems show that this fuel empties the queue.
* console output is not modelled; `Engine.calls` records every invocation of
  `executeStackJS` (the callback and the data it received).
* each actor step runs atomically (no other thread touches the queues while
  a loop body runs); the actors do not block in this part of the model.
* `Alarm::wait` against a producer's `push_back; notify` is modelled apart, as
  a step function over the two threads' positions (`AlarmRun`), run along a
  schedule.
* `simulateFetchThen` and `simulateDomClick` take as arguments the closure
  tokens the heap draws and, for the former, the value of the `type` member
  it never assigns.
-/

namespace JSEngine

/-! ## Task.h -/

/-- The component that created a task (`enum class TaskSource`). -/
inductive TaskSource where
  | SCHEDULER
  | EVENT_LOOP
  | API_WORKER
deriving DecidableEq, Repr

/-- The purpose of a task (`enum class TaskAction`). -/
inductive TaskAction where
  | REQUEST
  | RESPONSE
deriving DecidableEq, Repr

/-- Classification of a task (`enum class TaskType`). -/
inductive TaskType where
  | MACROTASK
  | MICROTASK
deriving DecidableEq, Repr

/-- A `std::any` payload: empty, or holding a `std::string`. -/
abbrev Any := Option String

/-- The message passed between actors (`struct Task`). -/
structure Task where
  id : Int
  source : TaskSource
  action : TaskAction
  type : TaskType
  callback_id : Int
  is_promise : Bool
  data : Any
deriving DecidableEq, Repr

/-- Value-initialised `Task{}`: every scalar is zero, the payload is empty. -/
instance : Inhabited Task where
  default :=
    { id := 0, source := TaskSource.SCHEDULER, action := TaskAction.REQUEST,
      type := TaskType.MACROTASK, callback_id := 0, is_promise := false, data := none }

/-- Two's complement wrap of an integer into the range of `long long`. -/
def wrap64 (x : Int) : Int := (x + 2 ^ 63) % 2 ^ 64 - 2 ^ 63

/-! ## Callback.h -/

/-- The kind of a simulated line of code (`enum class InstructionType`). -/
inductive InstructionType where
  | LOG
  | API_REQUEST
  | DOM_UPDATE
deriving DecidableEq, Repr

/-- One operation of a callback (`struct Instruction`): five independent fields. -/
structure Instruction where
  type : InstructionType
  payload : String
  is_api_request : Bool
  is_promise : Bool
  then_callback_id : Int := -1
deriving DecidableEq, Repr

/-- A simulated function (`struct Callback`). -/
structure Callback where
  id : Int
  associated_closure : Int
  instructions : List Instruction
deriving DecidableEq, Repr

/-! ## TaskQueue.h -/

/-- The deque behind `TaskQueue<T>`; the mutex has no sequential content. -/
structure TaskQueue (α : Type) where
  m_tasks : List α
deriving DecidableEq, Repr

namespace TaskQueue

variable {α : Type}

/-- A default-constructed queue. -/
def empty : TaskQueue α := { m_tasks := [] }

/-- Method `push_front`: `m_tasks.push_front(item)`. -/
def push_front (q : TaskQueue α) (item : α) : TaskQueue α :=
  { m_tasks := item :: q.m_tasks }

/-- Method `push_back`: `m_tasks.push_back(item)`. -/
def push_back (q : TaskQueue α) (item : α) : TaskQueue α :=
  { m_tasks := q.m_tasks ++ [item] }

/-- Method `pop`: a default-constructed `T{}` on an empty queue, else the front item,
which is removed.  The second component is the queue after the call. -/
def pop [Inhabited α] (q : TaskQueue α) : α × TaskQueue α :=
  match q.m_tasks with
  | [] => (default, q)
  | item :: rest => (item, { m_tasks := rest })

/-- Method `isEmpty`: `m_tasks.empty()`. -/
def isEmpty (q : TaskQueue α) : Bool := q.m_tasks.isEmpty

/-- A run of `push_back` calls, one per item, in list order. -/
def push_back_all (q : TaskQueue α) (items : List α) : TaskQueue α :=
  items.foldl push_back q

/-- A run of `n` successive `pop` calls: the returned items in call order and
the queue left behind. -/
def pop_n [Inhabited α] : Nat → TaskQueue α → List α × TaskQueue α
  | 0, q => ([], q)
  | n + 1, q =>
    let r := q.pop
    let rest := pop_n n r.2
    (r.1 :: rest.1, rest.2)

end TaskQueue

/-! ## Association lists standing for `std::map` and `std::unordered_map` -/

/-- Lookup `m.find(k)`: the value bound to `k`, if any. -/
def mapFind {V : Type} (m : List (Int × V)) (k : Int) : Option V :=
  match m with
  | [] => none
  | (k', v) :: rest => if k' = k then some v else mapFind rest k

/-- Removal `m.erase(k)`: drop the binding of `k`. -/
def mapErase {V : Type} (m : List (Int × V)) (k : Int) : List (Int × V) :=
  m.filter (fun p => decide (p.1 ≠ k))

/-- Assignment `m[k] = v`: insert or overwrite the binding of `k`. -/
def mapAssign {V : Type} (m : List (Int × V)) (k : Int) (v : V) : List (Int × V) :=
  (k, v) :: mapErase m k

/-! ## ClosureHeap.h -/

/-- The state of a `ClosureHeap`: the callback map and the next id.  The
random engine is not part of the state: the value it draws is an argument of
`register_callback`. -/
structure ClosureHeap where
  m_callbacks : List (Int × Callback)
  m_next_id : Int
deriving DecidableEq, Repr

namespace ClosureHeap

/-- A freshly constructed heap. -/
def init : ClosureHeap := { m_callbacks := [], m_next_id := 0 }

/-- Method `register_callback`: `closure_id` is the value drawn from the
distribution for this call.  The statement `long long id = m_next_id++` hands
out the current value and advances the 64-bit member by one; past
`2^63 - 1` the member continues at `-2^63` (two's complement). -/
def register_callback (h : ClosureHeap) (closure_id : Int)
    (instructions : List Instruction) : Int × ClosureHeap :=
  let id := h.m_next_id
  (id, { m_callbacks := mapAssign h.m_callbacks id
            { id := id, associated_closure := closure_id, instructions := instructions },
         m_next_id := wrap64 (h.m_next_id + 1) })

/-- Method `get`: the stored callback, or the `std::runtime_error` that `get` throws. -/
def get (h : ClosureHeap) (id : Int) : Except String Callback :=
  match mapFind h.m_callbacks id with
  | some cb => Except.ok cb
  | none => Except.error ("Callback ID not found: " ++ toString id)

end ClosureHeap

/-! ## main.cpp: messages to and from the workers -/

/-- A request handed to a worker (`struct ApiRequest`). -/
structure ApiRequest where
  task_id : Int
  action : TaskAction := TaskAction.REQUEST
  data : Any
deriving DecidableEq, Repr

/-- A response produced by a worker (`struct ApiResponse`). -/
structure ApiResponse where
  task_id : Int
  action : TaskAction := TaskAction.RESPONSE
  data : Any
deriving DecidableEq, Repr

/-- Value-initialised `ApiResponse{}`. -/
instance : Inhabited ApiResponse where
  default := { task_id := 0, data := none }

/-! ## main.cpp: the shared state -/

/-- Everything the threads of `main` share, plus the ApiManager's private
pending map, the id counter of `Task::generate_id`, the requests whose worker
is still running, and the record of `executeStackJS` invocations. -/
structure Engine where
  closure_heap : ClosureHeap
  scheduler_queue : TaskQueue Task
  api_manager_request_queue : TaskQueue Task
  api_manager_response_queue : TaskQueue ApiResponse
  event_loop_macrotask_queue : TaskQueue Task
  event_loop_microtask_queue : TaskQueue Task
  pending_api_tasks : List (Int × Task)
  counter : Int
  workers : List ApiRequest
  calls : List (Callback × Any)
deriving DecidableEq, Repr

/-- The engine as `main` builds it: empty queues, empty heap, counter zero. -/
def Engine.init : Engine :=
  { closure_heap := ClosureHeap.init
    scheduler_queue := TaskQueue.empty
    api_manager_request_queue := TaskQueue.empty
    api_manager_response_queue := TaskQueue.empty
    event_loop_macrotask_queue := TaskQueue.empty
    event_loop_microtask_queue := TaskQueue.empty
    pending_api_tasks := []
    counter := 0
    workers := []
    calls := [] }

/-- Function `Task::generate_id`: `counter.fetch_add(1)` returns the old value. -/
def generate_id (e : Engine) : Int × Engine :=
  (e.counter, { e with counter := wrap64 (e.counter + 1) })

/-- What an EventLoop step ends in: the thread goes on, or an exception left
the thread function (with the message and the state at the throw). -/
inductive Outcome where
  | running (e : Engine)
  | terminated (what : String) (e : Engine)
deriving DecidableEq, Repr

/-! ## main.cpp: executeStackJS -/

/-- The `Task api_request_task` that `executeStackJS` fills in for an
instruction, given the id drawn from `Task::generate_id`. -/
def api_request_task (id : Int) (instruction : Instruction) : Task :=
  { id := id
    source := TaskSource.EVENT_LOOP
    action := TaskAction.REQUEST
    type := if instruction.is_promise then TaskType.MICROTASK else TaskType.MACROTASK
    callback_id := instruction.then_callback_id
    is_promise := instruction.is_promise
    data := some instruction.payload }

/-- The body of the `for` loop of `executeStackJS` for one instruction. -/
def executeInstruction (instruction : Instruction) (e : Engine) : Engine :=
  if instruction.is_api_request then
    let g := generate_id e
    { g.2 with
      scheduler_queue := g.2.scheduler_queue.push_back (api_request_task g.1 instruction) }
  else e

/-- Function `executeStackJS`: record the invocation, then interpret the instructions
in order. -/
def executeStackJS (callback : Callback) (data : Any) (e : Engine) : Engine :=
  callback.instructions.foldl (fun acc instruction => executeInstruction instruction acc)
    { e with calls := e.calls ++ [(callback, data)] }

/-! ## main.cpp: the EventLoop thread -/

/-- The two statements run on a popped task: `closure_heap.get` (which may
throw) and then `executeStackJS`. -/
def run_callback (task : Task) (e : Engine) : Outcome :=
  match e.closure_heap.get task.callback_id with
  | Except.error what => Outcome.terminated what e
  | Except.ok cb_to_run => Outcome.running (executeStackJS cb_to_run task.data e)

/-- Phase 1 of the EventLoop: one macrotask, if there is one. -/
def event_loop_macrotask_phase (e : Engine) : Outcome :=
  if !e.event_loop_macrotask_queue.isEmpty then
    let r := e.event_loop_macrotask_queue.pop
    run_callback r.1 { e with event_loop_macrotask_queue := r.2 }
  else Outcome.running e

/-- Phase 2 of the EventLoop: `while (!event_loop_microtask_queue.isEmpty())`. -/
def event_loop_microtask_loop : Nat → Engine → Outcome
  | 0, e => Outcome.running e
  | fuel + 1, e =>
    if !e.event_loop_microtask_queue.isEmpty then
      let r := e.event_loop_microtask_queue.pop
      match run_callback r.1 { e with event_loop_microtask_queue := r.2 } with
      | Outcome.running e1 => event_loop_microtask_loop fuel e1
      | Outcome.terminated what e1 => Outcome.terminated what e1
    else Outcome.running e

/-- One iteration of the EventLoop's `while (true)`: phase 1, then phase 2.
Phase 3 only blocks the thread and changes no state. -/
def event_loop_tick (e : Engine) : Outcome :=
  match event_loop_macrotask_phase e with
  | Outcome.running e1 =>
    event_loop_microtask_loop e1.event_loop_microtask_queue.m_tasks.length e1
  | Outcome.terminated what e1 => Outcome.terminated what e1

/-- What arrives at the EventLoop between two ticks: the tasks the Scheduler
appended to the macrotask queue and to the microtask queue. -/
structure Arrival where
  macrotasks : List Task
  microtasks : List Task
deriving DecidableEq, Repr

/-- The Scheduler's `push_back`s of one arrival. -/
def deliver (a : Arrival) (e : Engine) : Engine :=
  { e with
    event_loop_macrotask_queue := e.event_loop_macrotask_queue.push_back_all a.macrotasks
    event_loop_microtask_queue := e.event_loop_microtask_queue.push_back_all a.microtasks }

/-- A run of ticks: before each tick the given arrival is delivered.  The
result lists the outcome of every tick in order; the run stops at the first
tick that terminates the thread. -/
def event_loop_run : List Arrival → Engine → List Outcome
  | [], _ => []
  | a :: rest, e =>
    match event_loop_tick (deliver a e) with
    | Outcome.running e1 => Outcome.running e1 :: event_loop_run rest e1
    | Outcome.terminated what e1 => [Outcome.terminated what e1]

/-! ## main.cpp: the Scheduler thread -/

/-- The routing `if` of the Scheduler loop body. -/
def scheduler_route (task : Task) (e : Engine) : Engine :=
  if task.source = TaskSource.API_WORKER then
    if task.is_promise then
      { e with event_loop_microtask_queue := e.event_loop_microtask_queue.push_back task }
    else
      { e with event_loop_macrotask_queue := e.event_loop_macrotask_queue.push_back task }
  else if task.source = TaskSource.EVENT_LOOP then
    { e with api_manager_request_queue := e.api_manager_request_queue.push_back task }
  else e

/-- The body of the Scheduler's inner loop: pop a task, route it. -/
def scheduler_step (e : Engine) : Engine :=
  let r := e.scheduler_queue.pop
  scheduler_route r.1 { e with scheduler_queue := r.2 }

/-- The Scheduler's inner loop: `while (!scheduler_queue.isEmpty())`. -/
def scheduler_loop : Nat → Engine → Engine
  | 0, e => e
  | fuel + 1, e =>
    if !e.scheduler_queue.isEmpty then scheduler_loop fuel (scheduler_step e) else e

/-- One drain of the Scheduler's input queue. -/
def scheduler_drain (e : Engine) : Engine :=
  scheduler_loop e.scheduler_queue.m_tasks.length e

/-! ## main.cpp: the ApiManager thread and its workers -/

/-- Function `sendAPIRequest`: a detached worker now holds the request. -/
def sendAPIRequest (request : ApiRequest) (e : Engine) : Engine :=
  { e with workers := e.workers ++ [request] }

/-- The worker's lambda once its sleep is over: build the response and push
it on the response queue. -/
def api_worker (req : ApiRequest) (e : Engine) : Engine :=
  let response : ApiResponse :=
    { task_id := req.task_id
      data := some "\x7b\"message\":\"API data received successfully\"\x7d" }
  { e with api_manager_response_queue := e.api_manager_response_queue.push_back response }

/-- The `k`-th running worker finishes: it leaves the set of running workers
and its response is on the response queue. -/
def worker_finish (k : Nat) (e : Engine) : Engine :=
  match e.workers.get? k with
  | none => e
  | some req => api_worker req { e with workers := e.workers.eraseIdx k }

/-- The body of the ApiManager's phase 1 loop: store the context, launch the
worker. -/
def api_manager_request_step (e : Engine) : Engine :=
  let r := e.api_manager_request_queue.pop
  let task := r.1
  let request_to_api : ApiRequest := { task_id := task.id, data := task.data }
  sendAPIRequest request_to_api
    { e with
      api_manager_request_queue := r.2
      pending_api_tasks := mapAssign e.pending_api_tasks task.id task }

/-- The ApiManager's phase 1: `while (!api_manager_request_queue.isEmpty())`. -/
def api_manager_request_loop : Nat → Engine → Engine
  | 0, e => e
  | fuel + 1, e =>
    if !e.api_manager_request_queue.isEmpty then
      api_manager_request_loop fuel (api_manager_request_step e)
    else e

/-- One run of phase 1. -/
def api_manager_request_phase (e : Engine) : Engine :=
  api_manager_request_loop e.api_manager_request_queue.m_tasks.length e

/-- The task the ApiManager sends on: the stored task with its source and
data overwritten. -/
def completed_task (stored : Task) (api_response : ApiResponse) : Task :=
  { stored with source := TaskSource.API_WORKER, data := api_response.data }

/-- The body of the ApiManager's phase 2 loop: pop a response, look its
context up, and dispatch the re-hydrated task or drop the response. -/
def api_manager_completion_step (e : Engine) : Engine :=
  let r := e.api_manager_response_queue.pop
  let api_response := r.1
  let e1 := { e with api_manager_response_queue := r.2 }
  match mapFind e1.pending_api_tasks api_response.task_id with
  | some stored =>
    let e2 := { e1 with pending_api_tasks := mapErase e1.pending_api_tasks api_response.task_id }
    let done := completed_task stored api_response
    if done.is_promise then
      { e2 with scheduler_queue := e2.scheduler_queue.push_front done }
    else
      { e2 with scheduler_queue := e2.scheduler_queue.push_back done }
  | none => e1

/-- The ApiManager's phase 2: `while (!api_manager_response_queue.isEmpty())`. -/
def api_manager_completion_loop : Nat → Engine → Engine
  | 0, e => e
  | fuel + 1, e =>
    if !e.api_manager_response_queue.isEmpty then
      api_manager_completion_loop fuel (api_manager_completion_step e)
    else e

/-- One run of phase 2. -/
def api_manager_completion_phase (e : Engine) : Engine :=
  api_manager_completion_loop e.api_manager_response_queue.m_tasks.length e

/-! ## Predicates and sample inputs used by the statements -/

/-- The relation between an instruction and the task sent out for it: every
field but the id is fixed by the instruction. -/
def IsRequestFor (instruction : Instruction) (t : Task) : Prop :=
  t.source = TaskSource.EVENT_LOOP
    ∧ t.action = TaskAction.REQUEST
    ∧ t.type = (if instruction.is_promise then TaskType.MICROTASK else TaskType.MACROTASK)
    ∧ t.callback_id = instruction.then_callback_id
    ∧ t.is_promise = instruction.is_promise
    ∧ t.data = some instruction.payload

/-- The parts of the engine that `executeStackJS` never writes. -/
def SameOutsideScheduler (e e1 : Engine) : Prop :=
  e1.closure_heap = e.closure_heap
    ∧ e1.event_loop_macrotask_queue = e.event_loop_macrotask_queue
    ∧ e1.event_loop_microtask_queue = e.event_loop_microtask_queue
    ∧ e1.api_manager_request_queue = e.api_manager_request_queue
    ∧ e1.api_manager_response_queue = e.api_manager_response_queue
    ∧ e1.pending_api_tasks = e.pending_api_tasks
    ∧ e1.workers = e.workers

/-- An instruction of kind `LOG` whose `is_api_request` flag is set. -/
def flaggedLog : Instruction :=
  { type := InstructionType.LOG, payload := "p", is_api_request := true,
    is_promise := false, then_callback_id := -1 }

/-- An instruction of kind `API_REQUEST` whose `is_api_request` flag is clear. -/
def unflaggedRequest : Instruction :=
  { type := InstructionType.API_REQUEST, payload := "p", is_api_request := false,
    is_promise := false, then_callback_id := -1 }

/-- The second instruction of the chained-promise scenario of `main.cpp`. -/
def detailsRequest : Instruction :=
  { type := InstructionType.API_REQUEST, payload := "api/user/details",
    is_api_request := true, is_promise := true, then_callback_id := 0 }

/-- The only instruction of the DOM-click scenario of `main.cpp`. -/
def clickLog : Instruction :=
  { type := InstructionType.LOG,
    payload := "SUCCESS: DOM event processed! The button's 'onclick' handler was executed.",
    is_api_request := false, is_promise := false, then_callback_id := -1 }

/-- A promise response as a worker's completion leaves it in the Scheduler queue. -/
def promiseResponse : Task :=
  { id := 7, source := TaskSource.API_WORKER, action := TaskAction.RESPONSE,
    type := TaskType.MICROTASK, callback_id := 0, is_promise := true, data := some "body" }

/-- An engine whose Scheduler queue holds `promiseResponse` and one more task. -/
def schedulerBusy : Engine :=
  { Engine.init with
    scheduler_queue :=
      { m_tasks := [promiseResponse, api_request_task 8 detailsRequest] } }

/-- Every binding of the pending map is stored under its task's own id, as
`pending_api_tasks[task.id] = task` makes it. -/
def KeyedById (m : List (Int × Task)) : Prop :=
  ∀ k v, mapFind m k = some v → v.id = k

/-- A request as `executeStackJS` sends it for `detailsRequest`, with id 8. -/
def detailsTask : Task := api_request_task 8 detailsRequest

/-- A worker's response to the request with id 8. -/
def detailsResponse : ApiResponse :=
  { task_id := 8, data := some "\x7b\"message\":\"API data received successfully\"\x7d" }

/-- An engine whose ApiManager holds the context of `detailsTask` and has its
response waiting. -/
def responseWaiting : Engine :=
  { Engine.init with
    pending_api_tasks := [(8, detailsTask)]
    api_manager_response_queue := { m_tasks := [detailsResponse] } }

/-- An engine whose ApiManager has a response for id 8 waiting, but no context. -/
def orphanWaiting : Engine :=
  { Engine.init with
    api_manager_response_queue := { m_tasks := [detailsResponse, detailsResponse] } }

/-- The tasks of a list that carry the id `i`. -/
def withId (i : Int) (ts : List Task) : List Task :=
  ts.filter (fun t => decide (t.id = i))

/-- The engine once the request step has stored the front request of `e0`,
with `rs` being the responses that later reach the ApiManager. -/
def awaiting (e0 : Engine) (rs : List ApiResponse) : Engine :=
  { api_manager_request_step e0 with api_manager_response_queue := { m_tasks := rs } }

/-- The Scheduler's routing test for the microtask queue. -/
def toMicrotask (t : Task) : Bool :=
  decide (t.source = TaskSource.API_WORKER) && t.is_promise

/-- The Scheduler's routing test for the macrotask queue. -/
def toMacrotask (t : Task) : Bool :=
  decide (t.source = TaskSource.API_WORKER) && !t.is_promise

/-- The Scheduler's routing test for the ApiManager request queue. -/
def toApiManager (t : Task) : Bool :=
  decide (t.source = TaskSource.EVENT_LOOP)

/-- An engine whose ApiManager request queue holds `detailsTask`. -/
def requestWaiting : Engine :=
  { Engine.init with api_manager_request_queue := { m_tasks := [detailsTask] } }

/-- A response for some other request (id 3). -/
def otherResponse : ApiResponse := { task_id := 3, data := some "other" }

/-- The task's `callback_id` is registered: `get` returns a callback for it. -/
def Registered (h : ClosureHeap) (t : Task) : Prop :=
  ∃ cb, h.get t.callback_id = Except.ok cb

/-- The record `c` of an `executeStackJS` invocation is the one made for task
`t`: the callback is what `get` returns for `t.callback_id`, the data is `t.data`. -/
def CallFor (h : ClosureHeap) (t : Task) (c : Callback × Any) : Prop :=
  h.get t.callback_id = Except.ok c.1 ∧ c.2 = t.data

/-- The tasks one tick pops when nothing goes wrong: the front of the
macrotask queue, if any, then the whole microtask queue. -/
def tickTasks (e : Engine) : List Task :=
  e.event_loop_macrotask_queue.m_tasks.head?.toList ++ e.event_loop_microtask_queue.m_tasks

/-- An instruction that requests an API call as a promise and attaches no
`then` callback (`then_callback_id` is the sentinel -1). -/
def pingWithoutThen : Instruction :=
  { type := InstructionType.API_REQUEST, payload := "api/ping", is_api_request := true,
    is_promise := true, then_callback_id := -1 }

/-- The engine after a simulator has registered the callback `[pingWithoutThen]`
(it gets id 0) and injected, with task id 0, a promise response that refers to it. -/
def sentinelInjected : Engine :=
  { Engine.init with
    closure_heap := (ClosureHeap.init.register_callback 1 [pingWithoutThen]).2
    counter := 1
    scheduler_queue :=
      { m_tasks := [{ id := 0, source := TaskSource.API_WORKER, action := TaskAction.RESPONSE,
                      type := TaskType.MICROTASK, callback_id := 0, is_promise := true,
                      data := some "Initial API response data" }] } }

/-- The engine at the end of an EventLoop step, whichever way it ended. -/
def Outcome.engine : Outcome → Engine
  | Outcome.running e => e
  | Outcome.terminated _ e => e

/-- The run of `sentinelInjected` up to the moment the response to the request
of `pingWithoutThen` stands in the microtask queue: Scheduler drain, EventLoop
tick, Scheduler drain, ApiManager request phase, the worker finishes,
ApiManager completion phase, Scheduler drain. -/
def sentinelResponseQueued : Engine :=
  scheduler_drain
    (api_manager_completion_phase
      (worker_finish 0
        (api_manager_request_phase
          (scheduler_drain
            (event_loop_tick (scheduler_drain sentinelInjected)).engine))))

/-- A heap after two registrations: id 0 is `[clickLog]`, id 1 is
`[clickLog, detailsRequest]`. -/
def twoCallbacks : ClosureHeap :=
  ((ClosureHeap.init.register_callback 11 [clickLog]).2.register_callback 12
    [clickLog, detailsRequest]).2

/-- A DOM-click response referring to callback 0. -/
def clickTask : Task :=
  { id := 0, source := TaskSource.API_WORKER, action := TaskAction.RESPONSE,
    type := TaskType.MACROTASK, callback_id := 0, is_promise := false, data := some "click" }

/-- A promise response referring to callback 1. -/
def promiseTask : Task :=
  { id := 1, source := TaskSource.API_WORKER, action := TaskAction.RESPONSE,
    type := TaskType.MICROTASK, callback_id := 1, is_promise := true, data := some "body" }

/-- A promise response referring to callback 5, which nobody registered. -/
def strayTask : Task :=
  { id := 2, source := TaskSource.API_WORKER, action := TaskAction.RESPONSE,
    type := TaskType.MICROTASK, callback_id := 5, is_promise := true, data := some "body" }

/-- An engine with one macrotask and one microtask queued, both registered. -/
def tickReady : Engine :=
  { Engine.init with
    closure_heap := twoCallbacks
    counter := 2
    event_loop_macrotask_queue := { m_tasks := [clickTask] }
    event_loop_microtask_queue := { m_tasks := [promiseTask] } }

/-- An engine whose microtask queue holds a registered task, then a stray one,
then a registered one. -/
def strayQueued : Engine :=
  { Engine.init with
    closure_heap := twoCallbacks
    counter := 3
    event_loop_microtask_queue := { m_tasks := [promiseTask, strayTask, promiseTask] } }

/-- An operation on the ClosureHeap: a registration or a lookup. -/
inductive HeapOp where
  | register (closure_id : Int) (instructions : List Instruction)
  | lookup (id : Int)
deriving DecidableEq, Repr

/-- The heap after one operation; a lookup returns its result to the caller and
leaves the heap as it is. -/
def HeapOp.apply : HeapOp → ClosureHeap → ClosureHeap
  | HeapOp.register closure_id instructions, h =>
    (h.register_callback closure_id instructions).2
  | HeapOp.lookup _, h => h

/-- A run of `n` successive `Task::generate_id` calls: the returned ids in call
order and the engine left behind. -/
def generate_ids : Nat → Engine → List Int × Engine
  | 0, e => ([], e)
  | n + 1, e =>
    let g := generate_id e
    let r := generate_ids n g.2
    (g.1 :: r.1, r.2)

/-- The function `simulateFetchThen` of `main.cpp`: two registrations, then one
task pushed on the Scheduler queue.  `closure_final` and `closure_initial` are
the tokens the heap draws for the two registrations.  The source never assigns
`first_promise_task.type`; `uninit_type` stands for whatever that member holds. -/
def simulateFetchThen (closure_final closure_initial : Int) (uninit_type : TaskType)
    (e : Engine) : Engine :=
  let r1 := e.closure_heap.register_callback closure_final
    [{ type := InstructionType.LOG,
       payload := "SUCCESS: The chained promise was resolved and its final callback executed.",
       is_api_request := false, is_promise := false, then_callback_id := -1 }]
  let final_cb_id := r1.1
  let r2 := r1.2.register_callback closure_initial
    [{ type := InstructionType.LOG,
       payload := "First promise resolved. Dispatching a new API request from its callback...",
       is_api_request := false, is_promise := false, then_callback_id := -1 },
     { type := InstructionType.API_REQUEST, payload := "api/user/details",
       is_api_request := true, is_promise := true, then_callback_id := final_cb_id }]
  let initial_cb_id := r2.1
  let g := generate_id { e with closure_heap := r2.2 }
  let first_promise_task : Task :=
    { id := g.1
      source := TaskSource.API_WORKER
      action := TaskAction.RESPONSE
      type := uninit_type
      callback_id := initial_cb_id
      is_promise := true
      data := some "Initial API response data" }
  { g.2 with scheduler_queue := g.2.scheduler_queue.push_back first_promise_task }

/-- The function `simulateDomClick` of `main.cpp`: one registration, then one
macrotask pushed on the Scheduler queue. -/
def simulateDomClick (closure : Int) (e : Engine) : Engine :=
  let r := e.closure_heap.register_callback closure
    [{ type := InstructionType.LOG,
       payload := "SUCCESS: DOM event processed! The button's 'onclick' handler was executed.",
       is_api_request := false, is_promise := false, then_callback_id := -1 }]
  let on_click_cb_id := r.1
  let g := generate_id { e with closure_heap := r.2 }
  let dom_event_task : Task :=
    { id := g.1
      source := TaskSource.API_WORKER
      action := TaskAction.RESPONSE
      type := TaskType.MACROTASK
      callback_id := on_click_cb_id
      is_promise := false
      data := some "\x7b\"type\":\"click\", \"target\":\"#submit-btn\"\x7d" }
  { g.2 with scheduler_queue := g.2.scheduler_queue.push_back dom_event_task }

/-- The three places of the program that create a task: `executeStackJS` on a
callback, `simulateFetchThen`, `simulateDomClick`. -/
inductive Producer where
  | interpret (callback : Callback) (data : Any)
  | fetchThen (closure_final closure_initial : Int) (uninit_type : TaskType)
  | domClick (closure : Int)
deriving DecidableEq, Repr

/-- One producer acting on the engine. -/
def Producer.run : Producer → Engine → Engine
  | Producer.interpret callback data, e => executeStackJS callback data e
  | Producer.fetchThen c1 c2 ty, e => simulateFetchThen c1 c2 ty e
  | Producer.domClick c, e => simulateDomClick c e

/-- The number of tasks a producer creates. -/
def Producer.created : Producer → Nat
  | Producer.interpret callback _ =>
    (callback.instructions.filter (fun i => i.is_api_request)).length
  | Producer.fetchThen _ _ _ => 1
  | Producer.domClick _ => 1

/-- A run of producers with nothing consuming the Scheduler queue in between,
so that the queue keeps every task created. -/
def produce_all (ops : List Producer) (e : Engine) : Engine :=
  ops.foldl (fun acc op => op.run acc) e

/-- The number of tasks a run of producers creates. -/
def created_total (ops : List Producer) : Nat :=
  (ops.map Producer.created).sum

/-- The ids handed out by `n` calls from counter value `c`, written out: the
current value, then the wrapped successor, and so on. -/
def ids_from (c : Int) : Nat → List Int
  | 0 => []
  | n + 1 => c :: ids_from (wrap64 (c + 1)) n

/-- The counter after `n` calls from counter value `c`. -/
def counter_after (c : Int) : Nat → Int
  | 0 => c
  | n + 1 => counter_after (wrap64 (c + 1)) n

/-- The ids of the tasks standing in the Scheduler queue, in queue order. -/
def queued_ids (e : Engine) : List Int :=
  e.scheduler_queue.m_tasks.map (fun t => t.id)

/-- A run of the three producers: the chained-promise simulator, the DOM-click
simulator, and the interpreter on a callback with two API requests. -/
def sampleProducers : List Producer :=
  [Producer.fetchThen 21 22 TaskType.MACROTASK,
   Producer.domClick 23,
   Producer.interpret
     { id := 1, associated_closure := 22, instructions := [detailsRequest, pingWithoutThen] }
     none]

/-- An idle engine: every queue empty and no worker running; the heap, the
pending map, the id counter and the record of past invocations are arbitrary. -/
def idleEngine (heap : ClosureHeap) (pending : List (Int × Task)) (counter : Int)
    (calls : List (Callback × Any)) : Engine :=
  { closure_heap := heap
    scheduler_queue := TaskQueue.empty
    api_manager_request_queue := TaskQueue.empty
    api_manager_response_queue := TaskQueue.empty
    event_loop_macrotask_queue := TaskQueue.empty
    event_loop_microtask_queue := TaskQueue.empty
    pending_api_tasks := pending
    counter := counter
    workers := []
    calls := calls }

/-- The callback `simulateFetchThen` registers first (the final handler), as
stored under the id `id` with the token `closure`. -/
def finalCallback (id closure : Int) : Callback :=
  { id := id, associated_closure := closure,
    instructions :=
      [{ type := InstructionType.LOG,
         payload := "SUCCESS: The chained promise was resolved and its final callback executed.",
         is_api_request := false, is_promise := false, then_callback_id := -1 }] }

/-- The callback `simulateFetchThen` registers second (the initial handler), as
stored under the id `id` with the token `closure`; its request names the final
handler `final_cb_id`. -/
def initialCallback (id closure final_cb_id : Int) : Callback :=
  { id := id, associated_closure := closure,
    instructions :=
      [{ type := InstructionType.LOG,
         payload := "First promise resolved. Dispatching a new API request from its callback...",
         is_api_request := false, is_promise := false, then_callback_id := -1 },
       { type := InstructionType.API_REQUEST, payload := "api/user/details",
         is_api_request := true, is_promise := true, then_callback_id := final_cb_id }] }

/-- Scenario S1 up to the first EventLoop tick: `simulateFetchThen` on the
engine, then one Scheduler drain. -/
def chainFirstQueued (closure_final closure_initial : Int) (uninit_type : TaskType)
    (e : Engine) : Engine :=
  scheduler_drain (simulateFetchThen closure_final closure_initial uninit_type e)

/-- Scenario S1 from the first EventLoop tick up to the second: the tick, a
Scheduler drain, the ApiManager request phase, the worker finishing, the
ApiManager completion phase, and a Scheduler drain. -/
def chainSecondQueued (closure_final closure_initial : Int) (uninit_type : TaskType)
    (e : Engine) : Engine :=
  scheduler_drain
    (api_manager_completion_phase
      (worker_finish 0
        (api_manager_request_phase
          (scheduler_drain
            (event_loop_tick
              (chainFirstQueued closure_final closure_initial uninit_type e)).engine))))

/-- The task `simulateFetchThen` injects, given the id it drew, the value of
the unassigned `type` member and the id of the initial callback. -/
def firstPromiseTask (id : Int) (uninit_type : TaskType) (initial_cb_id : Int) : Task :=
  { id := id, source := TaskSource.API_WORKER, action := TaskAction.RESPONSE,
    type := uninit_type, callback_id := initial_cb_id, is_promise := true,
    data := some "Initial API response data" }

/-- The task that comes back for the request of the initial callback: the
request task with its source and data overwritten by the ApiManager. -/
def secondPromiseTask (id final_cb_id : Int) : Task :=
  { id := id, source := TaskSource.API_WORKER, action := TaskAction.REQUEST,
    type := TaskType.MICROTASK, callback_id := final_cb_id, is_promise := true,
    data := some "\x7b\"message\":\"API data received successfully\"\x7d" }

/-- A second promise request, with id 9, whose response goes to callback 1. -/
def laterTask : Task :=
  api_request_task 9
    { type := InstructionType.API_REQUEST, payload := "api/user/settings",
      is_api_request := true, is_promise := true, then_callback_id := 1 }

/-- A worker's response to the request with id 9. -/
def laterResponse : ApiResponse := { task_id := 9, data := some "settings" }

/-- An engine whose ApiManager holds the contexts of `detailsTask` and
`laterTask`; the response for `detailsTask` arrived first, then the one for
`laterTask`.  Everything else is idle. -/
def twoResponsesWaiting : Engine :=
  { Engine.init with
    closure_heap := twoCallbacks
    counter := 10
    pending_api_tasks := [(9, laterTask), (8, detailsTask)]
    api_manager_response_queue := { m_tasks := [detailsResponse, laterResponse] } }

/-! ## Alarm.h: one waiting thread and one producer, interleaved

`Alarm::wait` is `m_cond_var.wait(lock, m_wakeup_condition)`, which the C++
library defines as `while (!pred()) wait(lock);`, where `wait(lock)` unlocks
and blocks in one atomic step.  `Alarm::notify` is `m_cond_var.notify_one()`,
which wakes one thread that is blocked at that moment and does nothing
otherwise.  The producers of `main.cpp` run `queue.push_back(task);
alarm.notify();` and take neither the alarm's mutex for the push nor for the
notify, so `m_mutex` (locked by the waiting thread alone) orders nothing
between the two threads and is left out of the state.  The library may also
wake a blocked thread spuriously but promises no such wake-up; the schedules
below contain none. -/

/-- Where the waiting thread stands inside `Alarm::wait`: about to evaluate the
predicate, about to block after the predicate was false, blocked on the
condition variable, or returned from `wait`. -/
inductive WaitPoint where
  | testing
  | parking
  | blocked
  | returned
deriving DecidableEq, Repr

/-- Where the producer stands in `queue.push_back(task); alarm.notify();`. -/
inductive NotifyPoint where
  | pushing
  | notifying
  | finished
deriving DecidableEq, Repr

/-- The state shared by a thread in `Alarm::wait` and a producer: the queue
the alarm's predicate reads, and where each thread stands. -/
structure AlarmRun where
  queue : TaskQueue Task
  waiter : WaitPoint
  producer : NotifyPoint
deriving DecidableEq, Repr

/-- The two threads a schedule can let run. -/
inductive Thread where
  | waiter
  | producer
deriving DecidableEq, Repr

/-- The predicate `main` gives to the Scheduler's alarm: `!scheduler_queue.isEmpty()`. -/
def wakeup_condition (s : AlarmRun) : Bool := !s.queue.isEmpty

/-- One step of the thread inside `Alarm::wait`: evaluate the predicate and
either return or go on to block; block; a blocked or returned thread does
nothing by itself. -/
def waiter_step (s : AlarmRun) : AlarmRun :=
  match s.waiter with
  | WaitPoint.testing =>
    if wakeup_condition s then { s with waiter := WaitPoint.returned }
    else { s with waiter := WaitPoint.parking }
  | WaitPoint.parking => { s with waiter := WaitPoint.blocked }
  | WaitPoint.blocked => s
  | WaitPoint.returned => s

/-- The call `Alarm::notify`: `notify_one` wakes the waiting thread if it is
blocked (it then re-evaluates the predicate), and has no effect otherwise. -/
def alarm_notify (s : AlarmRun) : AlarmRun :=
  match s.waiter with
  | WaitPoint.blocked => { s with waiter := WaitPoint.testing }
  | _ => s

/-- One step of the producer: the push, then the notify, then nothing. -/
def producer_step (item : Task) (s : AlarmRun) : AlarmRun :=
  match s.producer with
  | NotifyPoint.pushing =>
    { s with queue := s.queue.push_back item, producer := NotifyPoint.notifying }
  | NotifyPoint.notifying => { alarm_notify s with producer := NotifyPoint.finished }
  | NotifyPoint.finished => s

/-- One step of the thread the schedule picks. -/
def alarm_step (item : Task) (who : Thread) (s : AlarmRun) : AlarmRun :=
  match who with
  | Thread.waiter => waiter_step s
  | Thread.producer => producer_step item s

/-- The state after the threads have taken their steps in the order of the schedule. -/
def alarm_run (item : Task) (schedule : List Thread) (s : AlarmRun) : AlarmRun :=
  schedule.foldl (fun acc who => alarm_step item who acc) s

/-- A thread enters `Alarm::wait` on an empty queue while a producer is about
to push one task and notify. -/
def alarmStart : AlarmRun :=
  { queue := TaskQueue.empty, waiter := WaitPoint.testing, producer := NotifyPoint.pushing }

/-- The schedule that loses the wake-up: the waiter evaluates the predicate,
the producer pushes and notifies, the waiter blocks. -/
def lostWakeupSchedule : List Thread :=
  [Thread.waiter, Thread.producer, Thread.producer, Thread.waiter]

/-- The engine of `sentinelResponseQueued` after `simulateFetchThen` has injected
the chained-promise task and the Scheduler has routed it: the microtask queue
holds the response with `callback_id = -1` and, behind it, the injected task. -/
def injectedBehindSentinel : Engine :=
  scheduler_drain (simulateFetchThen 31 32 TaskType.MICROTASK sentinelResponseQueued)

/-- An instruction of kind `API_REQUEST` that asks for "api/silent" but whose
`is_api_request` flag is clear. -/
def silentRequest : Instruction :=
  { type := InstructionType.API_REQUEST, payload := "api/silent", is_api_request := false,
    is_promise := true, then_callback_id := 4 }

/-- An instruction of kind `LOG` with the text "hello" whose `is_api_request`
flag is set. -/
def loudLog : Instruction :=
  { type := InstructionType.LOG, payload := "hello", is_api_request := true,
    is_promise := false, then_callback_id := -1 }

/-- A callback holding `silentRequest` and then `loudLog`. -/
def mixedCallback : Callback :=
  { id := 0, associated_closure := 1, instructions := [silentRequest, loudLog] }

/-- A callback as `simulateFetchThen` registers it: a log, then an API request;
in both instructions the flag agrees with the kind. -/
def chainCallback : Callback :=
  { id := 1, associated_closure := 12, instructions := [clickLog, detailsRequest] }

/-! ## Properties of the queue -/

namespace TaskQueue

variable {α : Type}

theorem push_back_all_tasks (items : List α) (q : TaskQueue α) :
    (q.push_back_all items).m_tasks = q.m_tasks ++ items := by
  induction items generalizing q with
  | nil => simp [push_back_all]
  | cons x xs ih =>
    have h := ih (q.push_back x)
    simp only [push_back_all, List.foldl_cons] at h ⊢
    rw [h]
    simp [push_back]

theorem pop_n_tasks [Inhabited α] (n : Nat) (q : TaskQueue α) :
    (pop_n n q).1 = q.m_tasks.take n ++ List.replicate (n - q.m_tasks.length) default
      ∧ (pop_n n q).2.m_tasks = q.m_tasks.drop n := by
  induction n generalizing q with
  | zero => simp [pop_n]
  | succ k ih =>
    obtain ⟨xs⟩ := q
    cases xs with
    | nil =>
      have h := ih ({ m_tasks := [] } : TaskQueue α)
      simp only [pop_n, pop]
      refine ⟨?_, ?_⟩
      · rw [h.1]
        simp [List.replicate_succ]
      · rw [h.2]
        simp
    | cons x rest =>
      have h := ih ({ m_tasks := rest } : TaskQueue α)
      simp only [pop_n, pop]
      refine ⟨?_, ?_⟩
      · rw [h.1]
        simp
      · rw [h.2]
        simp

/-- C10 (FIFO).  After any run of `push_back` calls on a queue with any
contents, `n` successive `pop` calls return the first `n` items of the old
contents followed by the pushed items, in push order (and the default value
once the queue has run dry); popping as many times as there are items returns
all of them in that order and empties the queue; on an empty queue,
`push_back a; push_back b` makes `pop` return `a` and the next `pop` return `b`. -/
theorem push_back_pop_fifo [Inhabited α] (q : TaskQueue α) (items : List α) (n : Nat)
    (a b : α) :
    (pop_n n (q.push_back_all items)).1
        = (q.m_tasks ++ items).take n
          ++ List.replicate (n - (q.m_tasks.length + items.length)) default
      ∧ pop_n (q.m_tasks.length + items.length) (q.push_back_all items)
          = (q.m_tasks ++ items, empty)
      ∧ ((empty.push_back a).push_back b).pop.1 = a
      ∧ ((empty.push_back a).push_back b).pop.2.pop.1 = b := by
  refine ⟨?_, ?_, rfl, rfl⟩
  · have h := (pop_n_tasks n (q.push_back_all items)).1
    rw [push_back_all_tasks] at h
    simpa using h
  · have h := pop_n_tasks (q.m_tasks.length + items.length) (q.push_back_all items)
    rw [push_back_all_tasks] at h
    have h1 := h.1
    have h2 := h.2
    simp only [List.length_append, Nat.sub_self, List.replicate_zero,
      List.append_nil] at h1
    have e1 : (q.m_tasks ++ items).take (q.m_tasks.length + items.length)
        = q.m_tasks ++ items := by
      apply List.take_of_length_le
      simp
    have e2 : (q.m_tasks ++ items).drop (q.m_tasks.length + items.length) = [] := by
      apply List.drop_of_length_le
      simp
    rw [e1] at h1
    rw [e2] at h2
    cases hp : pop_n (q.m_tasks.length + items.length) (q.push_back_all items) with
    | mk got left =>
      rw [hp] at h1 h2
      obtain ⟨ys⟩ := left
      simp only at h1 h2
      simp [empty, h1, h2]

end TaskQueue

/-! ## Properties of executeStackJS -/

theorem executeInstruction_flagged (i : Instruction) (e : Engine)
    (h : i.is_api_request = true) :
    executeInstruction i e =
      { e with
        counter := wrap64 (e.counter + 1)
        scheduler_queue := e.scheduler_queue.push_back
          (api_request_task e.counter i) } := by
  simp [executeInstruction, h, generate_id]

theorem executeInstruction_unflagged (i : Instruction) (e : Engine)
    (h : i.is_api_request = false) : executeInstruction i e = e := by
  simp [executeInstruction, h]

theorem executeInstruction_frame (i : Instruction) (e : Engine) :
    SameOutsideScheduler e (executeInstruction i e)
      ∧ (executeInstruction i e).calls = e.calls := by
  cases h : i.is_api_request with
  | false => simp [executeInstruction_unflagged i e h, SameOutsideScheduler]
  | true => simp [executeInstruction_flagged i e h, SameOutsideScheduler]

theorem foldl_executeInstruction (is : List Instruction) (e : Engine) :
    ∃ emitted : List Task,
      (is.foldl (fun acc i => executeInstruction i acc) e).scheduler_queue.m_tasks
          = e.scheduler_queue.m_tasks ++ emitted
        ∧ List.Forall₂ IsRequestFor (is.filter (fun i => i.is_api_request)) emitted
        ∧ SameOutsideScheduler e (is.foldl (fun acc i => executeInstruction i acc) e)
        ∧ (is.foldl (fun acc i => executeInstruction i acc) e).calls = e.calls := by
  induction is generalizing e with
  | nil => exact ⟨[], by simp, by simp, by simp [SameOutsideScheduler], rfl⟩
  | cons i rest ih =>
    obtain ⟨emitted, hq, hrel, hframe, hcalls⟩ := ih (executeInstruction i e)
    have hf := executeInstruction_frame i e
    have hframe2 : SameOutsideScheduler e
        ((i :: rest).foldl (fun acc i => executeInstruction i acc) e) := by
      simp only [List.foldl_cons]
      obtain ⟨a1, a2, a3, a4, a5, a6, a7⟩ := hframe
      obtain ⟨⟨b1, b2, b3, b4, b5, b6, b7⟩, _⟩ := hf
      exact ⟨a1.trans b1, a2.trans b2, a3.trans b3, a4.trans b4, a5.trans b5,
        a6.trans b6, a7.trans b7⟩
    cases h : i.is_api_request with
    | false =>
      rw [executeInstruction_unflagged i e h] at hq hcalls
      refine ⟨emitted, ?_, ?_, hframe2, ?_⟩
      · simp only [List.foldl_cons]
        rw [executeInstruction_unflagged i e h]
        exact hq
      · simpa [List.filter, h] using hrel
      · simp only [List.foldl_cons]
        rw [executeInstruction_unflagged i e h]
        exact hcalls
    | true =>
      rw [executeInstruction_flagged i e h] at hq hcalls
      refine ⟨api_request_task e.counter i :: emitted, ?_, ?_, hframe2, ?_⟩
      · simp only [List.foldl_cons]
        rw [executeInstruction_flagged i e h, hq]
        simp [TaskQueue.push_back]
      · simp only [List.filter, h]
        exact List.Forall₂.cons ⟨rfl, rfl, rfl, rfl, rfl, rfl⟩ hrel
      · simp only [List.foldl_cons]
        rw [executeInstruction_flagged i e h]
        exact hcalls

theorem executeStackJS_spec (callback : Callback) (data : Any) (e : Engine) :
    ∃ emitted : List Task,
      (executeStackJS callback data e).scheduler_queue.m_tasks
          = e.scheduler_queue.m_tasks ++ emitted
        ∧ List.Forall₂ IsRequestFor
            (callback.instructions.filter (fun i => i.is_api_request)) emitted
        ∧ SameOutsideScheduler e (executeStackJS callback data e)
        ∧ (executeStackJS callback data e).calls = e.calls ++ [(callback, data)] := by
  obtain ⟨emitted, hq, hrel, hframe, hcalls⟩ :=
    foldl_executeInstruction callback.instructions
      { e with calls := e.calls ++ [(callback, data)] }
  exact ⟨emitted, hq, hrel, hframe, hcalls⟩

/-- C6, counterexample.  The callback `[silentRequest, loudLog]` has one
instruction of kind `API_REQUEST` and one of kind `LOG`.  `executeStackJS`
appends exactly one task, and it is the one for the `LOG` instruction (data
"hello", `callback_id` -1, not a promise): no task goes out for the
API-request instruction, so the appended tasks are not one per API-request
instruction with that instruction's fields. -/
theorem kind_request_without_flag_not_sent :
    mixedCallback.instructions.filter
        (fun i => decide (i.type = InstructionType.API_REQUEST)) = [silentRequest]
      ∧ (executeStackJS mixedCallback none Engine.init).scheduler_queue.m_tasks
          = [{ id := 0, source := TaskSource.EVENT_LOOP, action := TaskAction.REQUEST,
               type := TaskType.MACROTASK, callback_id := -1, is_promise := false,
               data := some "hello" }]
      ∧ ¬ ∃ emitted : List Task,
          (executeStackJS mixedCallback none Engine.init).scheduler_queue.m_tasks
              = Engine.init.scheduler_queue.m_tasks ++ emitted
            ∧ List.Forall₂ IsRequestFor
                (mixedCallback.instructions.filter
                  (fun i => decide (i.type = InstructionType.API_REQUEST))) emitted := by
  have hq : (executeStackJS mixedCallback none Engine.init).scheduler_queue.m_tasks
      = [{ id := 0, source := TaskSource.EVENT_LOOP, action := TaskAction.REQUEST,
           type := TaskType.MACROTASK, callback_id := -1, is_promise := false,
           data := some "hello" }] := rfl
  have hf : mixedCallback.instructions.filter
      (fun i => decide (i.type = InstructionType.API_REQUEST)) = [silentRequest] := by
    decide
  refine ⟨hf, hq, ?_⟩
  rintro ⟨emitted, h1, h2⟩
  rw [hq, hf] at *
  have hnil : Engine.init.scheduler_queue.m_tasks = [] := rfl
  rw [hnil, List.nil_append] at h1
  rw [← h1] at h2
  cases h2 with
  | cons hrel _ =>
    have hdata := hrel.2.2.2.2.2
    simp [silentRequest] at hdata

/-- C6, amended.  For every callback, `executeStackJS` leaves the Scheduler
queue equal to its old contents followed by one task per instruction whose
`is_api_request` flag is set (the instruction's type is not consulted), in
instruction order, and each such task has source `EVENT_LOOP`, action
`REQUEST`, type `MICROTASK` or `MACROTASK` after the instruction's
`is_promise`, the instruction's `then_callback_id`, `is_promise` and payload;
an instruction whose `then_callback_id` is -1 still sends its task; the
ClosureHeap and the EventLoop's two queues are as before.  For a callback in
all of whose instructions the flag agrees with `type == API_REQUEST`, the
tasks appended are one per instruction of kind `API_REQUEST`, in order. -/
theorem executeStackJS_emits_requests (callback : Callback) (data : Any) (e : Engine)
    (kind : InstructionType) (payload : String) (promise : Bool) :
    (∃ emitted : List Task,
      (executeStackJS callback data e).scheduler_queue.m_tasks
          = e.scheduler_queue.m_tasks ++ emitted
        ∧ List.Forall₂ IsRequestFor
            (callback.instructions.filter (fun i => i.is_api_request)) emitted)
      ∧ (executeStackJS callback data e).closure_heap = e.closure_heap
      ∧ (executeStackJS callback data e).event_loop_macrotask_queue
          = e.event_loop_macrotask_queue
      ∧ (executeStackJS callback data e).event_loop_microtask_queue
          = e.event_loop_microtask_queue
      ∧ (executeStackJS
            { callback with instructions :=
                [{ type := kind, payload := payload, is_api_request := true,
                   is_promise := promise, then_callback_id := -1 }] }
            data e).scheduler_queue.m_tasks
          = e.scheduler_queue.m_tasks ++
              [{ id := e.counter
                 source := TaskSource.EVENT_LOOP
                 action := TaskAction.REQUEST
                 type := if promise then TaskType.MICROTASK else TaskType.MACROTASK
                 callback_id := -1
                 is_promise := promise
                 data := some payload }]
      ∧ ((∀ i ∈ callback.instructions,
            (i.is_api_request = true ↔ i.type = InstructionType.API_REQUEST)) →
          ∃ emitted : List Task,
            (executeStackJS callback data e).scheduler_queue.m_tasks
                = e.scheduler_queue.m_tasks ++ emitted
              ∧ List.Forall₂ IsRequestFor
                  (callback.instructions.filter
                    (fun i => decide (i.type = InstructionType.API_REQUEST))) emitted) := by
  obtain ⟨emitted, hq, hrel, hframe, _⟩ := executeStackJS_spec callback data e
  refine ⟨⟨emitted, hq, hrel⟩, hframe.1, hframe.2.1, hframe.2.2.1, ?_, ?_⟩
  · simp [executeStackJS, executeInstruction, generate_id, TaskQueue.push_back,
      api_request_task]
  · intro hcons
    refine ⟨emitted, hq, ?_⟩
    have hfilter : callback.instructions.filter
        (fun i => decide (i.type = InstructionType.API_REQUEST))
        = callback.instructions.filter (fun i => i.is_api_request) := by
      apply List.filter_congr
      intro i hi
      have := hcons i hi
      cases hflag : i.is_api_request with
      | true => simpa using this.mp hflag
      | false =>
        have hne : ¬ i.type = InstructionType.API_REQUEST := fun ht => by
          have := this.mpr ht
          rw [hflag] at this
          cases this
        simpa using hne
    rw [hfilter]
    exact hrel

theorem executeStackJS_emits_requests_witness :
    (∀ i ∈ chainCallback.instructions,
        (i.is_api_request = true ↔ i.type = InstructionType.API_REQUEST))
      ∧ ∃ emitted : List Task,
          (executeStackJS chainCallback none Engine.init).scheduler_queue.m_tasks
              = Engine.init.scheduler_queue.m_tasks ++ emitted
            ∧ List.Forall₂ IsRequestFor
                (chainCallback.instructions.filter
                  (fun i => decide (i.type = InstructionType.API_REQUEST))) emitted := by
  have hcons : ∀ i ∈ chainCallback.instructions,
      (i.is_api_request = true ↔ i.type = InstructionType.API_REQUEST) := by decide
  exact ⟨hcons,
    (executeStackJS_emits_requests chainCallback none Engine.init InstructionType.LOG "" false
      ).2.2.2.2.2 hcons⟩

/-- C7, counterexample.  An instruction of kind `LOG` whose `is_api_request`
flag is set is a value of the `Instruction` aggregate for which the flag and
the kind disagree, and interpreting it sends a task to the Scheduler; an
instruction of kind `API_REQUEST` with the flag clear sends nothing. -/
theorem log_instruction_with_flag_emits :
    flaggedLog.type = InstructionType.LOG
      ∧ flaggedLog.is_api_request = true
      ∧ ¬ (flaggedLog.is_api_request = true ↔ flaggedLog.type = InstructionType.API_REQUEST)
      ∧ (executeStackJS { id := 0, associated_closure := 1, instructions := [flaggedLog] }
          none Engine.init).scheduler_queue.m_tasks
          = [{ id := 0, source := TaskSource.EVENT_LOOP, action := TaskAction.REQUEST,
               type := TaskType.MACROTASK, callback_id := -1, is_promise := false,
               data := some "p" }]
      ∧ unflaggedRequest.type = InstructionType.API_REQUEST
      ∧ (executeStackJS { id := 0, associated_closure := 1, instructions := [unflaggedRequest] }
          none Engine.init).scheduler_queue.m_tasks = [] := by
  refine ⟨rfl, rfl, by decide, rfl, rfl, rfl⟩

/-- C7, amended.  Whether an instruction sends a task is decided by its
`is_api_request` flag alone: with the flag set the interpreter appends exactly
one task to the Scheduler queue, with the flag clear it changes nothing.  For
an instruction whose flag agrees with `type == API_REQUEST`, a task is sent if
and only if the kind is `API_REQUEST`, and an instruction of kind `LOG` or
`DOM_UPDATE` sends none. -/
theorem executeInstruction_emits_iff_flag (i : Instruction) (e : Engine) :
    (i.is_api_request = true →
        ∃ t, IsRequestFor i t ∧
          (executeInstruction i e).scheduler_queue.m_tasks
            = e.scheduler_queue.m_tasks ++ [t])
      ∧ (i.is_api_request = false → executeInstruction i e = e)
      ∧ ((i.is_api_request = true ↔ i.type = InstructionType.API_REQUEST) →
          ((executeInstruction i e ≠ e ↔ i.type = InstructionType.API_REQUEST)
            ∧ (i.type = InstructionType.LOG ∨ i.type = InstructionType.DOM_UPDATE →
                executeInstruction i e = e))) := by
  have hne : i.is_api_request = true → executeInstruction i e ≠ e := by
    intro h heq
    have hlen := congrArg (fun x => x.scheduler_queue.m_tasks.length) heq
    rw [executeInstruction_flagged i e h] at hlen
    simp [TaskQueue.push_back] at hlen
  refine ⟨?_, executeInstruction_unflagged i e, ?_⟩
  · intro h
    refine ⟨api_request_task e.counter i, ⟨rfl, rfl, rfl, rfl, rfl, rfl⟩, ?_⟩
    rw [executeInstruction_flagged i e h]
    simp [TaskQueue.push_back]
  · intro hiff
    refine ⟨⟨?_, fun ht => hne (hiff.mpr ht)⟩, ?_⟩
    · intro hchg
      cases h : i.is_api_request with
      | false => exact absurd (executeInstruction_unflagged i e h) hchg
      | true => exact hiff.mp h
    · intro hk
      cases h : i.is_api_request with
      | false => exact executeInstruction_unflagged i e h
      | true =>
        have := hiff.mp h
        rcases hk with hk | hk <;> rw [hk] at this <;> cases this

theorem executeInstruction_emits_iff_flag_witness :
    (detailsRequest.is_api_request = true ↔ detailsRequest.type = InstructionType.API_REQUEST)
      ∧ (∃ t, IsRequestFor detailsRequest t ∧
          (executeInstruction detailsRequest Engine.init).scheduler_queue.m_tasks
            = Engine.init.scheduler_queue.m_tasks ++ [t])
      ∧ (executeInstruction detailsRequest Engine.init ≠ Engine.init
          ↔ detailsRequest.type = InstructionType.API_REQUEST)
      ∧ executeInstruction clickLog Engine.init = Engine.init :=
  ⟨by decide,
   (executeInstruction_emits_iff_flag detailsRequest Engine.init).1 rfl,
   ((executeInstruction_emits_iff_flag detailsRequest Engine.init).2.2 (by decide)).1,
   ((executeInstruction_emits_iff_flag clickLog Engine.init).2.2 (by decide)).2
     (Or.inl rfl)⟩

/-! ## Properties of the Scheduler -/

theorem pop_cons {α : Type} [Inhabited α] (q : TaskQueue α) (x : α) (rest : List α)
    (h : q.m_tasks = x :: rest) : q.pop = (x, { m_tasks := rest }) := by
  simp [TaskQueue.pop, h]

theorem isEmpty_cons {α : Type} (q : TaskQueue α) (x : α) (rest : List α)
    (h : q.m_tasks = x :: rest) : q.isEmpty = false := by
  simp [TaskQueue.isEmpty, h]

theorem isEmpty_nil {α : Type} (q : TaskQueue α) (h : q.m_tasks = []) :
    q.isEmpty = true := by
  simp [TaskQueue.isEmpty, h]

theorem scheduler_step_cons (e : Engine) (task : Task) (rest : List Task)
    (h : e.scheduler_queue.m_tasks = task :: rest) :
    scheduler_step e = scheduler_route task { e with scheduler_queue := { m_tasks := rest } } := by
  simp [scheduler_step, pop_cons e.scheduler_queue task rest h]

/-- C2.  When the front of the Scheduler queue is `task`, one routing step
removes it and appends it, unchanged, to the back of exactly one queue: the
microtask queue for an `API_WORKER` promise, the macrotask queue for an
`API_WORKER` non-promise, the ApiManager request queue for `EVENT_LOOP`; a task
of any other source is dropped and the three destinations stay as they were.
Changing the task's `action` and `type` changes no destination queue's length:
the task goes to the same place. -/
theorem scheduler_step_routes (e : Engine) (task : Task) (rest : List Task)
    (a : TaskAction) (ty : TaskType)
    (h : e.scheduler_queue.m_tasks = task :: rest) :
    (task.source = TaskSource.API_WORKER → task.is_promise = true →
        scheduler_step e =
          { e with
            scheduler_queue := { m_tasks := rest }
            event_loop_microtask_queue :=
              { m_tasks := e.event_loop_microtask_queue.m_tasks ++ [task] } })
      ∧ (task.source = TaskSource.API_WORKER → task.is_promise = false →
        scheduler_step e =
          { e with
            scheduler_queue := { m_tasks := rest }
            event_loop_macrotask_queue :=
              { m_tasks := e.event_loop_macrotask_queue.m_tasks ++ [task] } })
      ∧ (task.source = TaskSource.EVENT_LOOP →
        scheduler_step e =
          { e with
            scheduler_queue := { m_tasks := rest }
            api_manager_request_queue :=
              { m_tasks := e.api_manager_request_queue.m_tasks ++ [task] } })
      ∧ (task.source ≠ TaskSource.API_WORKER → task.source ≠ TaskSource.EVENT_LOOP →
        scheduler_step e = { e with scheduler_queue := { m_tasks := rest } })
      ∧ ((scheduler_step { e with scheduler_queue :=
              { m_tasks := { task with action := a, type := ty } :: rest } }
            ).event_loop_microtask_queue.m_tasks.length
            = (scheduler_step e).event_loop_microtask_queue.m_tasks.length
          ∧ (scheduler_step { e with scheduler_queue :=
              { m_tasks := { task with action := a, type := ty } :: rest } }
            ).event_loop_macrotask_queue.m_tasks.length
            = (scheduler_step e).event_loop_macrotask_queue.m_tasks.length
          ∧ (scheduler_step { e with scheduler_queue :=
              { m_tasks := { task with action := a, type := ty } :: rest } }
            ).api_manager_request_queue.m_tasks.length
            = (scheduler_step e).api_manager_request_queue.m_tasks.length) := by
  have hp := pop_cons e.scheduler_queue task rest h
  refine ⟨?_, ?_, ?_, ?_, ?_⟩
  · intro hs hpr
    simp [scheduler_step, hp, scheduler_route, hs, hpr, TaskQueue.push_back]
  · intro hs hpr
    simp [scheduler_step, hp, scheduler_route, hs, hpr, TaskQueue.push_back]
  · intro hs
    simp [scheduler_step, hp, scheduler_route, hs, TaskQueue.push_back]
  · intro h1 h2
    simp [scheduler_step, hp, scheduler_route, h1, h2]
  · rw [scheduler_step_cons e task rest h,
      scheduler_step_cons { e with scheduler_queue :=
        { m_tasks := { task with action := a, type := ty } :: rest } }
        { task with action := a, type := ty } rest rfl]
    simp only [scheduler_route]
    by_cases h1 : task.source = TaskSource.API_WORKER
    · cases h2 : task.is_promise <;> simp [h1, h2, TaskQueue.push_back]
    · by_cases h3 : task.source = TaskSource.EVENT_LOOP
      · simp [h3, TaskQueue.push_back]
      · simp [h1, h3]

theorem scheduler_step_routes_witness :
    schedulerBusy.scheduler_queue.m_tasks
        = promiseResponse :: [api_request_task 8 detailsRequest]
      ∧ scheduler_step schedulerBusy =
          { schedulerBusy with
            scheduler_queue := { m_tasks := [api_request_task 8 detailsRequest] }
            event_loop_microtask_queue :=
              { m_tasks := schedulerBusy.event_loop_microtask_queue.m_tasks
                  ++ [promiseResponse] } } :=
  ⟨rfl,
   (scheduler_step_routes schedulerBusy promiseResponse
      [api_request_task 8 detailsRequest] TaskAction.REQUEST TaskType.MACROTASK rfl).1
      rfl rfl⟩

/-! ## Properties of the pending map -/

theorem mapFind_erase {V : Type} (m : List (Int × V)) (k j : Int) :
    mapFind (mapErase m k) j = if j = k then none else mapFind m j := by
  induction m with
  | nil => simp [mapErase, mapFind]
  | cons p rest ih =>
    obtain ⟨k', v⟩ := p
    simp only [mapErase] at ih ⊢
    by_cases hk : k' = k
    · subst hk
      simp only [List.filter, ne_eq, not_true_eq_false, decide_False]
      rw [ih]
      by_cases hj : j = k'
      · simp [hj]
      · have hj2 : ¬ k' = j := fun h => hj h.symm
        simp [hj, mapFind, hj2]
    · simp only [List.filter, ne_eq, hk, not_false_eq_true, decide_True, mapFind]
      rw [ih]
      by_cases hj : j = k
      · subst hj
        simp [hk]
      · simp [hj]

theorem mapFind_assign {V : Type} (m : List (Int × V)) (k j : Int) (v : V) :
    mapFind (mapAssign m k v) j = if j = k then some v else mapFind m j := by
  simp only [mapAssign, mapFind, mapFind_erase]
  by_cases hj : j = k
  · subst hj
    simp
  · have hj2 : ¬ k = j := fun h => hj h.symm
    simp [hj, hj2]

theorem keyedById_erase (m : List (Int × Task)) (k : Int) (h : KeyedById m) :
    KeyedById (mapErase m k) := by
  intro j v hv
  rw [mapFind_erase] at hv
  by_cases hj : j = k
  · simp [hj] at hv
  · simp only [hj, if_false] at hv
    exact h j v hv

theorem keyedById_assign (m : List (Int × Task)) (t : Task) (h : KeyedById m) :
    KeyedById (mapAssign m t.id t) := by
  intro j v hv
  rw [mapFind_assign] at hv
  by_cases hj : j = t.id
  · simp only [hj, if_true, Option.some.injEq] at hv
    rw [← hv, hj]
  · simp only [hj, if_false] at hv
    exact h j v hv

/-! ## Properties of the ApiManager -/

theorem completion_step_found (e : Engine) (r : ApiResponse) (rest : List ApiResponse)
    (stored : Task)
    (hq : e.api_manager_response_queue.m_tasks = r :: rest)
    (hp : mapFind e.pending_api_tasks r.task_id = some stored) :
    api_manager_completion_step e =
      { e with
        api_manager_response_queue := { m_tasks := rest }
        pending_api_tasks := mapErase e.pending_api_tasks r.task_id
        scheduler_queue :=
          if stored.is_promise then e.scheduler_queue.push_front (completed_task stored r)
          else e.scheduler_queue.push_back (completed_task stored r) } := by
  simp only [api_manager_completion_step, pop_cons e.api_manager_response_queue r rest hq, hp]
  cases h : stored.is_promise <;> simp [completed_task, h]

theorem completion_step_orphan (e : Engine) (r : ApiResponse) (rest : List ApiResponse)
    (hq : e.api_manager_response_queue.m_tasks = r :: rest)
    (hp : mapFind e.pending_api_tasks r.task_id = none) :
    api_manager_completion_step e =
      { e with api_manager_response_queue := { m_tasks := rest } } := by
  simp only [api_manager_completion_step, pop_cons e.api_manager_response_queue r rest hq, hp]

/-- C3.  When the front response's `task_id` is bound in the pending map to
`stored`, the completion step removes that binding and no other, and sends to
the Scheduler queue the stored task with `source` set to `API_WORKER` and
`data` set to the response's data (id, action, type, callback_id and
is_promise are the stored ones): at the front if `is_promise`, at the back
otherwise.  Nothing else in the engine changes but the popped response. -/
theorem completion_step_dispatches (e : Engine) (r : ApiResponse)
    (rest : List ApiResponse) (stored : Task)
    (hq : e.api_manager_response_queue.m_tasks = r :: rest)
    (hp : mapFind e.pending_api_tasks r.task_id = some stored) :
    api_manager_completion_step e =
        { e with
          api_manager_response_queue := { m_tasks := rest }
          pending_api_tasks := mapErase e.pending_api_tasks r.task_id
          scheduler_queue :=
            { m_tasks :=
                if stored.is_promise then
                  completed_task stored r :: e.scheduler_queue.m_tasks
                else e.scheduler_queue.m_tasks ++ [completed_task stored r] } }
      ∧ completed_task stored r =
          { id := stored.id, source := TaskSource.API_WORKER, action := stored.action,
            type := stored.type, callback_id := stored.callback_id,
            is_promise := stored.is_promise, data := r.data }
      ∧ mapFind (api_manager_completion_step e).pending_api_tasks r.task_id = none
      ∧ (∀ k, k ≠ r.task_id →
          mapFind (api_manager_completion_step e).pending_api_tasks k
            = mapFind e.pending_api_tasks k) := by
  have hs := completion_step_found e r rest stored hq hp
  refine ⟨?_, rfl, ?_, ?_⟩
  · rw [hs]
    cases h : stored.is_promise <;> simp [TaskQueue.push_front, TaskQueue.push_back]
  · rw [hs]
    simp [mapFind_erase]
  · intro k hk
    rw [hs]
    simp [mapFind_erase, hk]

theorem completion_step_dispatches_witness :
    responseWaiting.api_manager_response_queue.m_tasks = detailsResponse :: []
      ∧ mapFind responseWaiting.pending_api_tasks detailsResponse.task_id = some detailsTask
      ∧ (api_manager_completion_step responseWaiting).scheduler_queue.m_tasks
          = [{ id := 8, source := TaskSource.API_WORKER, action := TaskAction.REQUEST,
               type := TaskType.MICROTASK, callback_id := 0, is_promise := true,
               data := detailsResponse.data }]
      ∧ mapFind (api_manager_completion_step responseWaiting).pending_api_tasks 8 = none := by
  have h := completion_step_dispatches responseWaiting detailsResponse [] detailsTask rfl rfl
  refine ⟨rfl, rfl, ?_, h.2.2.1⟩
  rw [h.1]
  rfl

theorem completion_loop_succ_cons (fuel : Nat) (e : Engine) (r : ApiResponse)
    (rest : List ApiResponse) (hq : e.api_manager_response_queue.m_tasks = r :: rest) :
    api_manager_completion_loop (fuel + 1) e
      = api_manager_completion_loop fuel (api_manager_completion_step e) := by
  simp [api_manager_completion_loop, isEmpty_cons e.api_manager_response_queue r rest hq]

theorem completion_loop_nil (fuel : Nat) (e : Engine)
    (hq : e.api_manager_response_queue.m_tasks = []) :
    api_manager_completion_loop fuel e = e := by
  cases fuel with
  | zero => rfl
  | succ n => simp [api_manager_completion_loop, isEmpty_nil e.api_manager_response_queue hq]

/-- C4.  When the front response's `task_id` is not bound in the pending map,
the completion step only pops the response: the pending map, the Scheduler
queue and everything else are as before, and the completion phase goes on
with the remaining responses exactly as if the orphan had not been there. -/
theorem completion_step_discards_orphan (e : Engine) (r : ApiResponse)
    (rest : List ApiResponse)
    (hq : e.api_manager_response_queue.m_tasks = r :: rest)
    (hp : mapFind e.pending_api_tasks r.task_id = none) :
    api_manager_completion_step e
        = { e with api_manager_response_queue := { m_tasks := rest } }
      ∧ (api_manager_completion_step e).pending_api_tasks = e.pending_api_tasks
      ∧ (api_manager_completion_step e).scheduler_queue = e.scheduler_queue
      ∧ api_manager_completion_phase e
          = api_manager_completion_phase
              { e with api_manager_response_queue := { m_tasks := rest } } := by
  have hs := completion_step_orphan e r rest hq hp
  refine ⟨hs, by rw [hs], by rw [hs], ?_⟩
  simp only [api_manager_completion_phase, hq, List.length_cons]
  rw [completion_loop_succ_cons _ e r rest hq, hs]

theorem completion_step_discards_orphan_witness :
    orphanWaiting.api_manager_response_queue.m_tasks = detailsResponse :: [detailsResponse]
      ∧ mapFind orphanWaiting.pending_api_tasks detailsResponse.task_id = none
      ∧ api_manager_completion_step orphanWaiting
          = { orphanWaiting with api_manager_response_queue := { m_tasks := [detailsResponse] } }
      ∧ api_manager_completion_phase orphanWaiting
          = api_manager_completion_phase
              { orphanWaiting with
                api_manager_response_queue := { m_tasks := [detailsResponse] } } :=
  ⟨rfl, rfl,
   (completion_step_discards_orphan orphanWaiting detailsResponse [detailsResponse] rfl rfl).1,
   (completion_step_discards_orphan orphanWaiting detailsResponse [detailsResponse] rfl rfl).2.2.2⟩

theorem scheduler_route_eq (t : Task) (e : Engine) :
    scheduler_route t e =
      { e with
        event_loop_microtask_queue :=
          { m_tasks := e.event_loop_microtask_queue.m_tasks ++ [t].filter toMicrotask }
        event_loop_macrotask_queue :=
          { m_tasks := e.event_loop_macrotask_queue.m_tasks ++ [t].filter toMacrotask }
        api_manager_request_queue :=
          { m_tasks := e.api_manager_request_queue.m_tasks ++ [t].filter toApiManager } } := by
  simp only [scheduler_route]
  by_cases h1 : t.source = TaskSource.API_WORKER
  · cases h2 : t.is_promise <;>
      simp [h1, h2, TaskQueue.push_back, List.filter, toMicrotask, toMacrotask, toApiManager]
  · by_cases h3 : t.source = TaskSource.EVENT_LOOP
    · simp [h3, TaskQueue.push_back, List.filter, toMicrotask, toMacrotask, toApiManager]
    · simp [h1, h3, List.filter, toMicrotask, toMacrotask, toApiManager]

theorem scheduler_loop_drains (tasks : List Task) (e : Engine)
    (h : e.scheduler_queue.m_tasks = tasks) :
    scheduler_loop tasks.length e =
      { e with
        scheduler_queue := { m_tasks := [] }
        event_loop_microtask_queue :=
          { m_tasks := e.event_loop_microtask_queue.m_tasks ++ tasks.filter toMicrotask }
        event_loop_macrotask_queue :=
          { m_tasks := e.event_loop_macrotask_queue.m_tasks ++ tasks.filter toMacrotask }
        api_manager_request_queue :=
          { m_tasks := e.api_manager_request_queue.m_tasks ++ tasks.filter toApiManager } } := by
  induction tasks generalizing e with
  | nil =>
    obtain ⟨heap, ⟨sq⟩, ⟨rq⟩, respq, ⟨maq⟩, ⟨miq⟩, pend, c, w, cl⟩ := e
    simp only at h
    subst h
    simp [scheduler_loop]
  | cons t rest ih =>
    simp only [List.length_cons, scheduler_loop, isEmpty_cons e.scheduler_queue t rest h,
      Bool.not_false, if_true]
    rw [scheduler_step_cons e t rest h, scheduler_route_eq]
    rw [ih _ rfl]
    simp [List.filter_cons]
    refine ⟨?_, ?_, ?_⟩ <;> split <;> simp

theorem scheduler_drain_eq (e : Engine) :
    scheduler_drain e =
      { e with
        scheduler_queue := { m_tasks := [] }
        event_loop_microtask_queue :=
          { m_tasks := e.event_loop_microtask_queue.m_tasks
              ++ e.scheduler_queue.m_tasks.filter toMicrotask }
        event_loop_macrotask_queue :=
          { m_tasks := e.event_loop_macrotask_queue.m_tasks
              ++ e.scheduler_queue.m_tasks.filter toMacrotask }
        api_manager_request_queue :=
          { m_tasks := e.api_manager_request_queue.m_tasks
              ++ e.scheduler_queue.m_tasks.filter toApiManager } } :=
  scheduler_loop_drains e.scheduler_queue.m_tasks e rfl

theorem completion_step_pops (e : Engine) (r : ApiResponse) (rest : List ApiResponse)
    (hq : e.api_manager_response_queue.m_tasks = r :: rest) :
    (api_manager_completion_step e).api_manager_response_queue.m_tasks = rest := by
  cases hp : mapFind e.pending_api_tasks r.task_id with
  | none => rw [completion_step_orphan e r rest hq hp]
  | some stored => rw [completion_step_found e r rest stored hq hp]

theorem completion_loop_drains (rs : List ApiResponse) (e : Engine)
    (hq : e.api_manager_response_queue.m_tasks = rs) :
    (api_manager_completion_loop rs.length e).api_manager_response_queue.m_tasks = [] := by
  induction rs generalizing e with
  | nil => exact hq
  | cons r rest ih =>
    simp only [List.length_cons]
    rw [completion_loop_succ_cons _ e r rest hq]
    exact ih _ (completion_step_pops e r rest hq)

theorem completion_phase_drains (e : Engine) :
    (api_manager_completion_phase e).api_manager_response_queue.m_tasks = [] :=
  completion_loop_drains e.api_manager_response_queue.m_tasks e rfl

theorem request_loop_drains (ts : List Task) (e : Engine)
    (hq : e.api_manager_request_queue.m_tasks = ts) :
    (api_manager_request_loop ts.length e).api_manager_request_queue.m_tasks = [] := by
  induction ts generalizing e with
  | nil => exact hq
  | cons t rest ih =>
    simp only [List.length_cons, api_manager_request_loop,
      isEmpty_cons e.api_manager_request_queue t rest hq, Bool.not_false, if_true]
    apply ih
    simp [api_manager_request_step, pop_cons e.api_manager_request_queue t rest hq,
      sendAPIRequest]

theorem request_phase_drains (e : Engine) :
    (api_manager_request_phase e).api_manager_request_queue.m_tasks = [] :=
  request_loop_drains e.api_manager_request_queue.m_tasks e rfl

/-! ## At-most-once dispatch -/

theorem withId_push_other (i : Int) (q : TaskQueue Task) (t : Task) (b : Bool)
    (h : t.id ≠ i) :
    withId i (if b then q.push_front t else q.push_back t).m_tasks = withId i q.m_tasks := by
  cases b <;> simp [withId, TaskQueue.push_front, TaskQueue.push_back, List.filter_cons, h]

theorem completion_step_other (e : Engine) (r : ApiResponse) (rest : List ApiResponse)
    (i : Int) (hq : e.api_manager_response_queue.m_tasks = r :: rest)
    (hkey : KeyedById e.pending_api_tasks) (hne : r.task_id ≠ i) :
    (api_manager_completion_step e).api_manager_response_queue.m_tasks = rest
      ∧ KeyedById (api_manager_completion_step e).pending_api_tasks
      ∧ mapFind (api_manager_completion_step e).pending_api_tasks i
          = mapFind e.pending_api_tasks i
      ∧ withId i (api_manager_completion_step e).scheduler_queue.m_tasks
          = withId i e.scheduler_queue.m_tasks := by
  cases hp : mapFind e.pending_api_tasks r.task_id with
  | none =>
    rw [completion_step_orphan e r rest hq hp]
    exact ⟨rfl, hkey, rfl, rfl⟩
  | some stored =>
    rw [completion_step_found e r rest stored hq hp]
    have hid : (completed_task stored r).id ≠ i := by
      have := hkey _ _ hp
      simp only [completed_task]
      rw [this]
      exact hne
    refine ⟨rfl, keyedById_erase _ _ hkey, ?_, ?_⟩
    · have hi : ¬ i = r.task_id := fun h => hne h.symm
      simp [mapFind_erase, hi]
    · exact withId_push_other i e.scheduler_queue _ _ hid

theorem completion_loop_no_context (fuel : Nat) (e : Engine) (i : Int)
    (hkey : KeyedById e.pending_api_tasks)
    (hnone : mapFind e.pending_api_tasks i = none) :
    mapFind (api_manager_completion_loop fuel e).pending_api_tasks i = none
      ∧ withId i (api_manager_completion_loop fuel e).scheduler_queue.m_tasks
          = withId i e.scheduler_queue.m_tasks := by
  induction fuel generalizing e with
  | zero => exact ⟨hnone, rfl⟩
  | succ n ih =>
    cases hq : e.api_manager_response_queue.m_tasks with
    | nil =>
      rw [completion_loop_nil _ e hq]
      exact ⟨hnone, rfl⟩
    | cons r rest =>
      rw [completion_loop_succ_cons n e r rest hq]
      by_cases hr : r.task_id = i
      · have hp : mapFind e.pending_api_tasks r.task_id = none := by rw [hr]; exact hnone
        rw [completion_step_orphan e r rest hq hp]
        exact ih _ hkey hnone
      · obtain ⟨_, h2, h3, h4⟩ := completion_step_other e r rest i hq hkey hr
        have := ih (api_manager_completion_step e) h2 (h3.trans hnone)
        exact ⟨this.1, this.2.trans h4⟩

theorem completion_loop_before (pre : List ApiResponse) (e : Engine) (i : Int)
    (more : List ApiResponse)
    (hq : e.api_manager_response_queue.m_tasks = pre ++ more)
    (hpre : ∀ x ∈ pre, x.task_id ≠ i)
    (hkey : KeyedById e.pending_api_tasks) :
    (api_manager_completion_loop pre.length e).api_manager_response_queue.m_tasks = more
      ∧ KeyedById (api_manager_completion_loop pre.length e).pending_api_tasks
      ∧ mapFind (api_manager_completion_loop pre.length e).pending_api_tasks i
          = mapFind e.pending_api_tasks i
      ∧ withId i (api_manager_completion_loop pre.length e).scheduler_queue.m_tasks
          = withId i e.scheduler_queue.m_tasks := by
  induction pre generalizing e with
  | nil => exact ⟨by simpa using hq, hkey, rfl, rfl⟩
  | cons r rest ih =>
    have hq2 : e.api_manager_response_queue.m_tasks = r :: (rest ++ more) := by
      simpa using hq
    simp only [List.length_cons]
    rw [completion_loop_succ_cons _ e r (rest ++ more) hq2]
    obtain ⟨h1, h2, h3, h4⟩ :=
      completion_step_other e r (rest ++ more) i hq2 hkey (hpre r (by simp))
    obtain ⟨g1, g2, g3, g4⟩ :=
      ih (api_manager_completion_step e) h1 (fun x hx => hpre x (by simp [hx])) h2
    exact ⟨g1, g2, g3.trans h3, g4.trans h4⟩

theorem completion_loop_add (a b : Nat) (e : Engine) :
    api_manager_completion_loop (a + b) e
      = api_manager_completion_loop b (api_manager_completion_loop a e) := by
  induction a generalizing e with
  | zero => simp [api_manager_completion_loop]
  | succ n ih =>
    cases hq : e.api_manager_response_queue.m_tasks with
    | nil =>
      rw [completion_loop_nil _ e hq, completion_loop_nil _ e hq, completion_loop_nil _ e hq]
    | cons r rest =>
      have : n + 1 + b = (n + b) + 1 := by omega
      rw [this, completion_loop_succ_cons _ e r rest hq, completion_loop_succ_cons _ e r rest hq]
      exact ih _

theorem request_step_stores (e0 : Engine) (t : Task) (more : List Task)
    (hreq : e0.api_manager_request_queue.m_tasks = t :: more) :
    api_manager_request_step e0 =
      { e0 with
        api_manager_request_queue := { m_tasks := more }
        pending_api_tasks := mapAssign e0.pending_api_tasks t.id t
        workers := e0.workers ++ [{ task_id := t.id, data := t.data }] } := by
  simp [api_manager_request_step, pop_cons e0.api_manager_request_queue t more hreq,
    sendAPIRequest]

theorem completion_step_frame (e : Engine) :
    (api_manager_completion_step e).event_loop_macrotask_queue = e.event_loop_macrotask_queue
      ∧ (api_manager_completion_step e).event_loop_microtask_queue
          = e.event_loop_microtask_queue := by
  simp only [api_manager_completion_step]
  split
  · split <;> exact ⟨rfl, rfl⟩
  · exact ⟨rfl, rfl⟩

theorem completion_loop_frame (fuel : Nat) (e : Engine) :
    (api_manager_completion_loop fuel e).event_loop_macrotask_queue
        = e.event_loop_macrotask_queue
      ∧ (api_manager_completion_loop fuel e).event_loop_microtask_queue
          = e.event_loop_microtask_queue := by
  induction fuel generalizing e with
  | zero => exact ⟨rfl, rfl⟩
  | succ n ih =>
    simp only [api_manager_completion_loop]
    split
    · have h1 := ih (api_manager_completion_step e)
      have h2 := completion_step_frame e
      exact ⟨h1.1.trans h2.1, h1.2.trans h2.2⟩
    · exact ⟨rfl, rfl⟩

theorem withId_push_same (i : Int) (q : TaskQueue Task) (t : Task) (b : Bool)
    (h : t.id = i) :
    withId i (if b then q.push_front t else q.push_back t).m_tasks
      = if b then t :: withId i q.m_tasks else withId i q.m_tasks ++ [t] := by
  cases b <;> simp [withId, TaskQueue.push_front, TaskQueue.push_back, List.filter_cons, h]

theorem withId_append (i : Int) (xs ys : List Task) :
    withId i (xs ++ ys) = withId i xs ++ withId i ys := by
  simp [withId]

theorem withId_filter (i : Int) (p : Task → Bool) (xs : List Task) :
    withId i (xs.filter p) = (withId i xs).filter p := by
  simp only [withId, List.filter_filter]
  congr 1
  funext x
  exact Bool.and_comm _ _

/-- C5 (at-most-once dispatch).  Let the request step store the request `t`,
and let the responses `pre ++ r :: post` reach the completion loop afterwards,
`r` being the first that carries `t`'s id (`post` may carry it any number of
times).  Then: the context of `t` is stored; it is still there while the
responses of `pre` are processed; the step that processes `r` removes it and
sends the one completed task (front for a promise, back otherwise); at every
later point of the loop there is no context for that id, so a later response
carrying it takes the discard branch, and the tasks with that id in the
Scheduler queue stay what they were right after `r`; over the whole phase
exactly one task with that id is added to the Scheduler queue; and when no
task with that id was queued before, exactly one task with that id stands in
the EventLoop's queues after the Scheduler's drain, so the EventLoop pops, and
interprets, at most one task for the request. -/
theorem at_most_once_dispatch (e0 : Engine) (t : Task) (more : List Task)
    (pre post : List ApiResponse) (r : ApiResponse) (n : Nat)
    (hreq : e0.api_manager_request_queue.m_tasks = t :: more)
    (hkey : KeyedById e0.pending_api_tasks)
    (hpre : ∀ x ∈ pre, x.task_id ≠ t.id)
    (hr : r.task_id = t.id) :
    mapFind (awaiting e0 (pre ++ r :: post)).pending_api_tasks t.id = some t
      ∧ (n ≤ pre.length →
          mapFind (api_manager_completion_loop n
            (awaiting e0 (pre ++ r :: post))).pending_api_tasks t.id = some t)
      ∧ api_manager_completion_loop (pre.length + 1) (awaiting e0 (pre ++ r :: post))
          = { api_manager_completion_loop pre.length (awaiting e0 (pre ++ r :: post)) with
              api_manager_response_queue := { m_tasks := post }
              pending_api_tasks :=
                mapErase (api_manager_completion_loop pre.length
                  (awaiting e0 (pre ++ r :: post))).pending_api_tasks t.id
              scheduler_queue :=
                if t.is_promise then
                  (api_manager_completion_loop pre.length
                    (awaiting e0 (pre ++ r :: post))).scheduler_queue.push_front
                      (completed_task t r)
                else
                  (api_manager_completion_loop pre.length
                    (awaiting e0 (pre ++ r :: post))).scheduler_queue.push_back
                      (completed_task t r) }
      ∧ (pre.length < n →
          mapFind (api_manager_completion_loop n
              (awaiting e0 (pre ++ r :: post))).pending_api_tasks t.id = none
            ∧ withId t.id (api_manager_completion_loop n
                (awaiting e0 (pre ++ r :: post))).scheduler_queue.m_tasks
              = withId t.id (api_manager_completion_loop (pre.length + 1)
                  (awaiting e0 (pre ++ r :: post))).scheduler_queue.m_tasks)
      ∧ withId t.id (api_manager_completion_phase
            (awaiting e0 (pre ++ r :: post))).scheduler_queue.m_tasks
          = (if t.is_promise then
              completed_task t r :: withId t.id e0.scheduler_queue.m_tasks
            else withId t.id e0.scheduler_queue.m_tasks ++ [completed_task t r])
      ∧ (withId t.id e0.scheduler_queue.m_tasks = [] →
          withId t.id e0.event_loop_macrotask_queue.m_tasks = [] →
          withId t.id e0.event_loop_microtask_queue.m_tasks = [] →
          withId t.id
              ((scheduler_drain (api_manager_completion_phase
                  (awaiting e0 (pre ++ r :: post)))).event_loop_macrotask_queue.m_tasks
                ++ (scheduler_drain (api_manager_completion_phase
                  (awaiting e0 (pre ++ r :: post)))).event_loop_microtask_queue.m_tasks)
            = [completed_task t r]) := by
  -- the engine the completion loop starts from
  have hE : awaiting e0 (pre ++ r :: post) =
      { e0 with
        api_manager_request_queue := { m_tasks := more }
        pending_api_tasks := mapAssign e0.pending_api_tasks t.id t
        workers := e0.workers ++ [{ task_id := t.id, data := t.data }]
        api_manager_response_queue := { m_tasks := pre ++ r :: post } } := by
    simp [awaiting, request_step_stores e0 t more hreq]
  generalize awaiting e0 (pre ++ r :: post) = E at hE ⊢
  have hEq : E.api_manager_response_queue.m_tasks = pre ++ r :: post := by rw [hE]
  have hEkey : KeyedById E.pending_api_tasks := by
    rw [hE]; exact keyedById_assign _ t hkey
  have hEfind : mapFind E.pending_api_tasks t.id = some t := by
    rw [hE]; simp [mapFind_assign]
  have hEsched : E.scheduler_queue = e0.scheduler_queue := by rw [hE]
  have hEmacs : E.event_loop_macrotask_queue = e0.event_loop_macrotask_queue := by rw [hE]
  have hEmics : E.event_loop_microtask_queue = e0.event_loop_microtask_queue := by rw [hE]
  -- the state when `r` is at the front
  obtain ⟨b1, b2, b3, b4⟩ := completion_loop_before pre E t.id (r :: post) hEq hpre hEkey
  have hfindX : mapFind (api_manager_completion_loop pre.length E).pending_api_tasks r.task_id
      = some t := by rw [hr, b3, hEfind]
  have hstep := completion_step_found (api_manager_completion_loop pre.length E) r post t
    b1 hfindX
  have hone : api_manager_completion_loop (pre.length + 1) E
      = api_manager_completion_step (api_manager_completion_loop pre.length E) := by
    rw [completion_loop_add, completion_loop_succ_cons 0 _ r post b1]
    rfl
  have hcid : (completed_task t r).id = t.id := rfl
  have hafter : ∀ k, mapFind (api_manager_completion_loop (pre.length + 1 + k) E).pending_api_tasks
        t.id = none
      ∧ withId t.id (api_manager_completion_loop (pre.length + 1 + k) E).scheduler_queue.m_tasks
        = withId t.id (api_manager_completion_loop (pre.length + 1) E).scheduler_queue.m_tasks := by
    intro k
    rw [completion_loop_add (pre.length + 1) k E]
    apply completion_loop_no_context
    · rw [hone, hstep]
      exact keyedById_erase _ _ b2
    · rw [hone, hstep]
      simp [mapFind_erase, hr]
  have hnet : withId t.id (api_manager_completion_loop (pre.length + 1) E).scheduler_queue.m_tasks
      = (if t.is_promise then completed_task t r :: withId t.id e0.scheduler_queue.m_tasks
          else withId t.id e0.scheduler_queue.m_tasks ++ [completed_task t r]) := by
    rw [hone, hstep]
    simp only
    rw [withId_push_same t.id _ _ _ hcid, b4, hEsched]
  have hphase : withId t.id (api_manager_completion_phase E).scheduler_queue.m_tasks
      = (if t.is_promise then completed_task t r :: withId t.id e0.scheduler_queue.m_tasks
          else withId t.id e0.scheduler_queue.m_tasks ++ [completed_task t r]) := by
    have hlen : E.api_manager_response_queue.m_tasks.length = pre.length + 1 + post.length := by
      rw [hEq]; simp; omega
    simp only [api_manager_completion_phase, hlen]
    rw [(hafter post.length).2, hnet]
  refine ⟨hEfind, ?_, ?_, ?_, hphase, ?_⟩
  · intro hn
    have hsplit : E.api_manager_response_queue.m_tasks
        = pre.take n ++ (pre.drop n ++ r :: post) := by
      rw [hEq, ← List.append_assoc, List.take_append_drop]
    have hlen : (pre.take n).length = n := by simp [hn]
    have := completion_loop_before (pre.take n) E t.id (pre.drop n ++ r :: post) hsplit
      (fun x hx => hpre x (List.mem_of_mem_take hx)) hEkey
    rw [hlen] at this
    rw [this.2.2.1, hEfind]
  · rw [hone, hstep, hr]
  · intro hn
    obtain ⟨k, rfl⟩ : ∃ k, n = pre.length + 1 + k := ⟨n - (pre.length + 1), by omega⟩
    exact hafter k
  · intro h1 h2 h3
    rw [scheduler_drain_eq]
    simp only
    have hm1 : (api_manager_completion_phase E).event_loop_macrotask_queue
        = e0.event_loop_macrotask_queue :=
      ((completion_loop_frame _ E).1).trans hEmacs
    have hm2 : (api_manager_completion_phase E).event_loop_microtask_queue
        = e0.event_loop_microtask_queue :=
      ((completion_loop_frame _ E).2).trans hEmics
    rw [hm1, hm2]
    simp only [withId_append, withId_filter, h2, h3, List.nil_append]
    rw [hphase, h1]
    have hsrc : (completed_task t r).source = TaskSource.API_WORKER := rfl
    have hpr : (completed_task t r).is_promise = t.is_promise := rfl
    cases hb : t.is_promise <;>
      simp [List.filter_cons, toMacrotask, toMicrotask, hsrc, hpr, hb]

theorem at_most_once_dispatch_witness :
    requestWaiting.api_manager_request_queue.m_tasks = detailsTask :: []
      ∧ KeyedById requestWaiting.pending_api_tasks
      ∧ (∀ x ∈ [otherResponse], x.task_id ≠ detailsTask.id)
      ∧ detailsResponse.task_id = detailsTask.id
      ∧ withId detailsTask.id (api_manager_completion_phase
            (awaiting requestWaiting
              ([otherResponse] ++ detailsResponse :: [detailsResponse, detailsResponse]))
          ).scheduler_queue.m_tasks
          = [completed_task detailsTask detailsResponse] := by
  have hk : KeyedById requestWaiting.pending_api_tasks := by
    intro k v h
    simp [requestWaiting, Engine.init, mapFind] at h
  have hp : ∀ x ∈ [otherResponse], x.task_id ≠ detailsTask.id := by decide
  have h := (at_most_once_dispatch requestWaiting detailsTask [] [otherResponse]
    [detailsResponse, detailsResponse] detailsResponse 3 rfl hk hp rfl).2.2.2.2.1
  exact ⟨rfl, hk, hp, rfl, h⟩

/-! ## Properties of the EventLoop -/

theorem get_error_iff (h : ClosureHeap) (id : Int) :
    (¬ ∃ cb, h.get id = Except.ok cb)
      ↔ h.get id = Except.error ("Callback ID not found: " ++ toString id) := by
  simp only [ClosureHeap.get]
  cases mapFind h.m_callbacks id <;> simp

theorem run_callback_ok (t : Task) (e : Engine) (cb : Callback)
    (h : e.closure_heap.get t.callback_id = Except.ok cb) :
    run_callback t e = Outcome.running (executeStackJS cb t.data e) := by
  simp [run_callback, h]

theorem run_callback_error (t : Task) (e : Engine) (what : String)
    (h : e.closure_heap.get t.callback_id = Except.error what) :
    run_callback t e = Outcome.terminated what e := by
  simp [run_callback, h]

theorem microtask_loop_nil (fuel : Nat) (e : Engine)
    (hq : e.event_loop_microtask_queue.m_tasks = []) :
    event_loop_microtask_loop fuel e = Outcome.running e := by
  cases fuel with
  | zero => rfl
  | succ n => simp [event_loop_microtask_loop, isEmpty_nil e.event_loop_microtask_queue hq]

theorem microtask_loop_cons (fuel : Nat) (e : Engine) (t : Task) (rest : List Task)
    (hq : e.event_loop_microtask_queue.m_tasks = t :: rest) :
    event_loop_microtask_loop (fuel + 1) e =
      match run_callback t { e with event_loop_microtask_queue := { m_tasks := rest } } with
      | Outcome.running e1 => event_loop_microtask_loop fuel e1
      | Outcome.terminated what e1 => Outcome.terminated what e1 := by
  simp [event_loop_microtask_loop, isEmpty_cons e.event_loop_microtask_queue t rest hq,
    pop_cons e.event_loop_microtask_queue t rest hq]

theorem microtask_loop_all (tasks : List Task) (e : Engine) (fuel : Nat)
    (hq : e.event_loop_microtask_queue.m_tasks = tasks)
    (hreg : ∀ t ∈ tasks, Registered e.closure_heap t)
    (hfuel : tasks.length ≤ fuel) :
    ∃ e1 newcalls,
      event_loop_microtask_loop fuel e = Outcome.running e1
        ∧ e1.event_loop_microtask_queue.m_tasks = []
        ∧ e1.event_loop_macrotask_queue = e.event_loop_macrotask_queue
        ∧ e1.closure_heap = e.closure_heap
        ∧ e1.calls = e.calls ++ newcalls
        ∧ List.Forall₂ (CallFor e.closure_heap) tasks newcalls := by
  induction tasks generalizing e fuel with
  | nil =>
    exact ⟨e, [], microtask_loop_nil fuel e hq, hq, rfl, rfl, by simp, List.Forall₂.nil⟩
  | cons t rest ih =>
    obtain ⟨f, rfl⟩ : ∃ f, fuel = f + 1 := ⟨fuel - 1, by simp at hfuel; omega⟩
    obtain ⟨cb, hcb⟩ := hreg t (by simp)
    rw [microtask_loop_cons f e t rest hq]
    rw [run_callback_ok t { e with event_loop_microtask_queue := { m_tasks := rest } } cb hcb]
    simp only
    obtain ⟨_, _, _, hframe, hcalls⟩ :=
      executeStackJS_spec cb t.data { e with event_loop_microtask_queue := { m_tasks := rest } }
    obtain ⟨f1, f2, f3, _⟩ := hframe
    obtain ⟨e1, newcalls, g1, g2, g3, g4, g5, g6⟩ :=
      ih (executeStackJS cb t.data { e with event_loop_microtask_queue := { m_tasks := rest } })
        f (by rw [f3]) (by rw [f1]; exact fun x hx => hreg x (by simp [hx]))
        (by simp at hfuel; omega)
    refine ⟨e1, (cb, t.data) :: newcalls, g1, g2, g3.trans f2, g4.trans f1, ?_, ?_⟩
    · rw [g5, hcalls]
      simp
    · rw [f1] at g6
      exact List.Forall₂.cons ⟨hcb, rfl⟩ g6

theorem microtask_loop_stops (pre : List Task) (e : Engine) (fuel : Nat) (t : Task)
    (post : List Task) (what : String)
    (hq : e.event_loop_microtask_queue.m_tasks = pre ++ t :: post)
    (hreg : ∀ x ∈ pre, Registered e.closure_heap x)
    (hbad : e.closure_heap.get t.callback_id = Except.error what)
    (hfuel : pre.length < fuel) :
    ∃ e1 newcalls,
      event_loop_microtask_loop fuel e = Outcome.terminated what e1
        ∧ e1.event_loop_microtask_queue.m_tasks = post
        ∧ e1.calls = e.calls ++ newcalls
        ∧ List.Forall₂ (CallFor e.closure_heap) pre newcalls := by
  induction pre generalizing e fuel with
  | nil =>
    obtain ⟨f, rfl⟩ : ∃ f, fuel = f + 1 := ⟨fuel - 1, by simp at hfuel; omega⟩
    have hq2 : e.event_loop_microtask_queue.m_tasks = t :: post := by simpa using hq
    rw [microtask_loop_cons f e t post hq2]
    rw [run_callback_error t { e with event_loop_microtask_queue := { m_tasks := post } }
      what hbad]
    exact ⟨_, [], rfl, rfl, by simp, List.Forall₂.nil⟩
  | cons x rest ih =>
    obtain ⟨f, rfl⟩ : ∃ f, fuel = f + 1 := ⟨fuel - 1, by simp at hfuel; omega⟩
    have hq2 : e.event_loop_microtask_queue.m_tasks = x :: (rest ++ t :: post) := by
      simpa using hq
    obtain ⟨cb, hcb⟩ := hreg x (by simp)
    rw [microtask_loop_cons f e x _ hq2]
    rw [run_callback_ok x
      { e with event_loop_microtask_queue := { m_tasks := rest ++ t :: post } } cb hcb]
    simp only
    obtain ⟨_, _, _, hframe, hcalls⟩ :=
      executeStackJS_spec cb x.data
        { e with event_loop_microtask_queue := { m_tasks := rest ++ t :: post } }
    obtain ⟨f1, _, f3, _⟩ := hframe
    obtain ⟨e1, newcalls, g1, g2, g3, g4⟩ :=
      ih (executeStackJS cb x.data
            { e with event_loop_microtask_queue := { m_tasks := rest ++ t :: post } })
        f (by rw [f3]) (by rw [f1]; exact fun y hy => hreg y (by simp [hy]))
        (by rw [f1]; exact hbad) (by simp at hfuel; omega)
    refine ⟨e1, (cb, x.data) :: newcalls, g1, g2, ?_, ?_⟩
    · rw [g3, hcalls]
      simp
    · rw [f1] at g4
      exact List.Forall₂.cons ⟨hcb, rfl⟩ g4

theorem macrotask_phase_nil (e : Engine) (hq : e.event_loop_macrotask_queue.m_tasks = []) :
    event_loop_macrotask_phase e = Outcome.running e := by
  simp [event_loop_macrotask_phase, isEmpty_nil e.event_loop_macrotask_queue hq]

theorem macrotask_phase_cons (e : Engine) (t : Task) (rest : List Task)
    (hq : e.event_loop_macrotask_queue.m_tasks = t :: rest) :
    event_loop_macrotask_phase e =
      run_callback t { e with event_loop_macrotask_queue := { m_tasks := rest } } := by
  simp [event_loop_macrotask_phase, isEmpty_cons e.event_loop_macrotask_queue t rest hq,
    pop_cons e.event_loop_macrotask_queue t rest hq]

theorem tick_all (e : Engine)
    (hmacs : ∀ t ∈ e.event_loop_macrotask_queue.m_tasks, Registered e.closure_heap t)
    (hmics : ∀ t ∈ e.event_loop_microtask_queue.m_tasks, Registered e.closure_heap t) :
    ∃ e1 newcalls,
      event_loop_tick e = Outcome.running e1
        ∧ e1.event_loop_microtask_queue.m_tasks = []
        ∧ e1.event_loop_macrotask_queue.m_tasks = e.event_loop_macrotask_queue.m_tasks.tail
        ∧ e1.closure_heap = e.closure_heap
        ∧ e1.calls = e.calls ++ newcalls
        ∧ List.Forall₂ (CallFor e.closure_heap) (tickTasks e) newcalls := by
  cases hq : e.event_loop_macrotask_queue.m_tasks with
  | nil =>
    obtain ⟨e1, newcalls, g1, g2, g3, g4, g5, g6⟩ :=
      microtask_loop_all e.event_loop_microtask_queue.m_tasks e
        e.event_loop_microtask_queue.m_tasks.length rfl hmics (Nat.le_refl _)
    refine ⟨e1, newcalls, ?_, g2, ?_, g4, g5, ?_⟩
    · simp only [event_loop_tick, macrotask_phase_nil e hq]
      exact g1
    · rw [g3, hq]
      rfl
    · simpa [tickTasks, hq] using g6
  | cons t rest =>
    obtain ⟨cb, hcb⟩ := hmacs t (by simp [hq])
    obtain ⟨_, _, _, hframe, hcalls⟩ :=
      executeStackJS_spec cb t.data { e with event_loop_macrotask_queue := { m_tasks := rest } }
    obtain ⟨f1, f2, f3, _⟩ := hframe
    obtain ⟨e1, newcalls, g1, g2, g3, g4, g5, g6⟩ :=
      microtask_loop_all e.event_loop_microtask_queue.m_tasks
        (executeStackJS cb t.data
          { e with event_loop_macrotask_queue := { m_tasks := rest } })
        e.event_loop_microtask_queue.m_tasks.length (by rw [f3])
        (by rw [f1]; exact hmics) (Nat.le_refl _)
    refine ⟨e1, (cb, t.data) :: newcalls, ?_, g2, ?_, g4.trans f1, ?_, ?_⟩
    · simp only [event_loop_tick, macrotask_phase_cons e t rest hq]
      rw [run_callback_ok t { e with event_loop_macrotask_queue := { m_tasks := rest } } cb hcb]
      simp only
      rw [f3]
      exact g1
    · rw [g3, f2]
      rfl
    · rw [g5, hcalls]
      simp
    · rw [f1] at g6
      simp only [tickTasks, hq, List.head?_cons, Option.toList, List.cons_append,
        List.nil_append]
      exact List.Forall₂.cons ⟨hcb, rfl⟩ g6

theorem deliver_tasks (a : Arrival) (e : Engine) :
    (deliver a e).event_loop_macrotask_queue.m_tasks
        = e.event_loop_macrotask_queue.m_tasks ++ a.macrotasks
      ∧ (deliver a e).event_loop_microtask_queue.m_tasks
        = e.event_loop_microtask_queue.m_tasks ++ a.microtasks
      ∧ (deliver a e).closure_heap = e.closure_heap := by
  simp [deliver, TaskQueue.push_back_all_tasks]

theorem run_all (arrivals : List Arrival) (e : Engine)
    (hmacs : ∀ t ∈ e.event_loop_macrotask_queue.m_tasks, Registered e.closure_heap t)
    (hmics : ∀ t ∈ e.event_loop_microtask_queue.m_tasks, Registered e.closure_heap t)
    (harr : ∀ a ∈ arrivals, (∀ t ∈ a.macrotasks, Registered e.closure_heap t)
      ∧ (∀ t ∈ a.microtasks, Registered e.closure_heap t)) :
    (event_loop_run arrivals e).length = arrivals.length
      ∧ ∀ o ∈ event_loop_run arrivals e,
          ∃ e1, o = Outcome.running e1 ∧ e1.event_loop_microtask_queue.m_tasks = [] := by
  induction arrivals generalizing e with
  | nil => simp [event_loop_run]
  | cons a rest ih =>
    obtain ⟨d1, d2, d3⟩ := deliver_tasks a e
    have ha := harr a (by simp)
    have hm1 : ∀ t ∈ (deliver a e).event_loop_macrotask_queue.m_tasks,
        Registered (deliver a e).closure_heap t := by
      rw [d1, d3]
      intro t ht
      rcases List.mem_append.mp ht with h | h
      · exact hmacs t h
      · exact ha.1 t h
    have hm2 : ∀ t ∈ (deliver a e).event_loop_microtask_queue.m_tasks,
        Registered (deliver a e).closure_heap t := by
      rw [d2, d3]
      intro t ht
      rcases List.mem_append.mp ht with h | h
      · exact hmics t h
      · exact ha.2 t h
    obtain ⟨e1, _, g1, g2, g3, g4, _, _⟩ := tick_all (deliver a e) hm1 hm2
    have hheap : e1.closure_heap = e.closure_heap := g4.trans d3
    have hrest := ih e1
      (by
        rw [g3, hheap]
        intro t ht
        have := hm1 t (List.mem_of_mem_tail ht)
        rwa [d3] at this)
      (by rw [g2]; intro t ht; cases ht)
      (by rw [hheap]; exact fun b hb => harr b (by simp [hb]))
    simp only [event_loop_run, g1, List.length_cons, List.mem_cons]
    refine ⟨by rw [hrest.1], ?_⟩
    intro o ho
    rcases ho with rfl | ho
    · exact ⟨e1, rfl, g2⟩
    · exact hrest.2 o ho

/-- C1.  When every queued task refers to a registered callback, one tick
goes on (no error) and invokes the interpreter exactly for the front of the
macrotask queue (if there is one), then for every task of the microtask queue
in queue order, each with the callback `get` returns and the task's data;
afterwards the microtask queue is empty and the macrotask queue has lost its
front element, nothing else (an empty queue stays empty).  Hence in a run of
ticks, with any registered tasks arriving between ticks, no tick terminates
the thread and the microtask queue is empty at the end of every tick, that is
between any two consecutive macrotask interpretations. -/
theorem tick_runs_one_macrotask_then_drains (e : Engine) (arrivals : List Arrival)
    (hmacs : ∀ t ∈ e.event_loop_macrotask_queue.m_tasks, Registered e.closure_heap t)
    (hmics : ∀ t ∈ e.event_loop_microtask_queue.m_tasks, Registered e.closure_heap t)
    (harr : ∀ a ∈ arrivals, (∀ t ∈ a.macrotasks, Registered e.closure_heap t)
      ∧ (∀ t ∈ a.microtasks, Registered e.closure_heap t)) :
    (∃ e1 newcalls,
        event_loop_tick e = Outcome.running e1
          ∧ e1.calls = e.calls ++ newcalls
          ∧ List.Forall₂ (CallFor e.closure_heap)
              (e.event_loop_macrotask_queue.m_tasks.head?.toList
                ++ e.event_loop_microtask_queue.m_tasks) newcalls
          ∧ e1.event_loop_microtask_queue.m_tasks = []
          ∧ e1.event_loop_macrotask_queue.m_tasks
              = e.event_loop_macrotask_queue.m_tasks.tail)
      ∧ (event_loop_run arrivals e).length = arrivals.length
      ∧ (∀ o ∈ event_loop_run arrivals e,
          ∃ e1, o = Outcome.running e1 ∧ e1.event_loop_microtask_queue.m_tasks = []) := by
  obtain ⟨e1, newcalls, g1, g2, g3, _, g5, g6⟩ := tick_all e hmacs hmics
  have hrun := run_all arrivals e hmacs hmics harr
  exact ⟨⟨e1, newcalls, g1, g5, g6, g2, g3⟩, hrun.1, hrun.2⟩

theorem tick_runs_one_macrotask_then_drains_witness :
    (∀ t ∈ tickReady.event_loop_macrotask_queue.m_tasks, Registered tickReady.closure_heap t)
      ∧ (∀ t ∈ tickReady.event_loop_microtask_queue.m_tasks,
          Registered tickReady.closure_heap t)
      ∧ (∃ e1 newcalls,
          event_loop_tick tickReady = Outcome.running e1
            ∧ e1.calls = tickReady.calls ++ newcalls
            ∧ List.Forall₂ (CallFor tickReady.closure_heap)
                (tickReady.event_loop_macrotask_queue.m_tasks.head?.toList
                  ++ tickReady.event_loop_microtask_queue.m_tasks) newcalls
            ∧ e1.event_loop_microtask_queue.m_tasks = []
            ∧ e1.event_loop_macrotask_queue.m_tasks
                = tickReady.event_loop_macrotask_queue.m_tasks.tail) := by
  have h1 : ∀ t ∈ tickReady.event_loop_macrotask_queue.m_tasks,
      Registered tickReady.closure_heap t := by
    intro t ht
    simp only [tickReady, List.mem_singleton] at ht
    subst ht
    exact ⟨_, rfl⟩
  have h2 : ∀ t ∈ tickReady.event_loop_microtask_queue.m_tasks,
      Registered tickReady.closure_heap t := by
    intro t ht
    simp only [tickReady, List.mem_singleton] at ht
    subst ht
    exact ⟨_, rfl⟩
  have h3 : ∀ a ∈ [({ macrotasks := [clickTask], microtasks := [promiseTask] } : Arrival)],
      (∀ t ∈ a.macrotasks, Registered tickReady.closure_heap t)
        ∧ (∀ t ∈ a.microtasks, Registered tickReady.closure_heap t) := by
    intro a ha
    simp only [List.mem_singleton] at ha
    subst ha
    exact ⟨h1, h2⟩
  exact ⟨h1, h2,
    (tick_runs_one_macrotask_then_drains tickReady
      [{ macrotasks := [clickTask], microtasks := [promiseTask] }] h1 h2 h3).1⟩

/-- C9.  Let `t` be the first task a tick pops whose `callback_id` is not
registered (`pre` are the tasks popped before it, all registered).  Then the
tick ends in the error thrown by `get` for `t`, and up to that point the
interpreter has been invoked exactly for the tasks of `pre`, in order: not for
`t`, and for nothing after it. -/
theorem tick_terminates_on_unregistered (e : Engine) (pre post : List Task) (t : Task)
    (hq : tickTasks e = pre ++ t :: post)
    (hpre : ∀ x ∈ pre, Registered e.closure_heap x)
    (hbad : ¬ Registered e.closure_heap t) :
    ∃ e1 newcalls,
      event_loop_tick e
          = Outcome.terminated ("Callback ID not found: " ++ toString t.callback_id) e1
        ∧ e1.calls = e.calls ++ newcalls
        ∧ List.Forall₂ (CallFor e.closure_heap) pre newcalls := by
  have hbad2 := (get_error_iff e.closure_heap t.callback_id).mp hbad
  cases hm : e.event_loop_macrotask_queue.m_tasks with
  | nil =>
    have hq2 : e.event_loop_microtask_queue.m_tasks = pre ++ t :: post := by
      simpa [tickTasks, hm] using hq
    obtain ⟨e1, newcalls, g1, _, g3, g4⟩ :=
      microtask_loop_stops pre e e.event_loop_microtask_queue.m_tasks.length t post _
        hq2 hpre hbad2 (by rw [hq2]; simp)
    refine ⟨e1, newcalls, ?_, g3, g4⟩
    simp only [event_loop_tick, macrotask_phase_nil e hm]
    exact g1
  | cons m ms =>
    have hq2 : m :: e.event_loop_microtask_queue.m_tasks = pre ++ t :: post := by
      simpa [tickTasks, hm] using hq
    cases pre with
    | nil =>
      simp only [List.nil_append, List.cons.injEq] at hq2
      obtain ⟨rfl, _⟩ := hq2
      refine ⟨{ e with event_loop_macrotask_queue := { m_tasks := ms } }, [], ?_, by simp,
        List.Forall₂.nil⟩
      simp only [event_loop_tick, macrotask_phase_cons e m ms hm]
      rw [run_callback_error m { e with event_loop_macrotask_queue := { m_tasks := ms } }
        _ hbad2]
    | cons x rest =>
      simp only [List.cons_append, List.cons.injEq] at hq2
      obtain ⟨rfl, hq3⟩ := hq2
      obtain ⟨cb, hcb⟩ := hpre m (by simp)
      obtain ⟨_, _, _, hframe, hcalls⟩ :=
        executeStackJS_spec cb m.data { e with event_loop_macrotask_queue := { m_tasks := ms } }
      obtain ⟨f1, _, f3, _⟩ := hframe
      obtain ⟨e1, newcalls, g1, _, g3, g4⟩ :=
        microtask_loop_stops rest
          (executeStackJS cb m.data
            { e with event_loop_macrotask_queue := { m_tasks := ms } })
          e.event_loop_microtask_queue.m_tasks.length t post _
          (by rw [f3]; exact hq3)
          (by rw [f1]; exact fun y hy => hpre y (by simp [hy]))
          (by rw [f1]; exact hbad2) (by rw [hq3]; simp)
      refine ⟨e1, (cb, m.data) :: newcalls, ?_, ?_, ?_⟩
      · simp only [event_loop_tick, macrotask_phase_cons e m ms hm]
        rw [run_callback_ok m { e with event_loop_macrotask_queue := { m_tasks := ms } } cb hcb]
        simp only
        rw [f3]
        exact g1
      · rw [g3, hcalls]
        simp
      · rw [f1] at g4
        exact List.Forall₂.cons ⟨hcb, rfl⟩ g4

theorem tick_terminates_on_unregistered_witness :
    tickTasks strayQueued = [promiseTask] ++ strayTask :: [promiseTask]
      ∧ (∀ x ∈ [promiseTask], Registered strayQueued.closure_heap x)
      ∧ ¬ Registered strayQueued.closure_heap strayTask
      ∧ ∃ e1 newcalls,
          event_loop_tick strayQueued
              = Outcome.terminated ("Callback ID not found: " ++ toString strayTask.callback_id) e1
            ∧ e1.calls = strayQueued.calls ++ newcalls
            ∧ List.Forall₂ (CallFor strayQueued.closure_heap) [promiseTask] newcalls := by
  have h1 : ∀ x ∈ [promiseTask], Registered strayQueued.closure_heap x := by
    intro x hx
    simp only [List.mem_singleton] at hx
    subst hx
    exact ⟨_, rfl⟩
  have h2 : ¬ Registered strayQueued.closure_heap strayTask :=
    (get_error_iff strayQueued.closure_heap strayTask.callback_id).mpr rfl
  exact ⟨rfl, h1, h2,
    tick_terminates_on_unregistered strayQueued [promiseTask] [promiseTask] strayTask rfl h1 h2⟩

/-- C8, the code at the failing input.  A callback whose only instruction is an
API request without `then` callback is registered and triggered; the response
completes the round trip and stands in the microtask queue with
`callback_id = -1`.  The tick that pops it does not skip it: it calls
`get (-1)`, which throws, and the tick ends in that error. -/
theorem sentinel_response_terminates_event_loop :
    sentinelResponseQueued.event_loop_microtask_queue.m_tasks
        = [{ id := 1, source := TaskSource.API_WORKER, action := TaskAction.REQUEST,
             type := TaskType.MICROTASK, callback_id := -1, is_promise := true,
             data := some "\x7b\"message\":\"API data received successfully\"\x7d" }]
      ∧ sentinelResponseQueued.event_loop_macrotask_queue.m_tasks = []
      ∧ event_loop_tick sentinelResponseQueued
          = Outcome.terminated "Callback ID not found: -1"
              { sentinelResponseQueued with event_loop_microtask_queue := { m_tasks := [] } } := by
  refine ⟨by rfl, by rfl, by rfl⟩

/-! ## Push-front and pop -/

/-- C11 (push-front overtakes).  For every queue contents `q` and item `b`,
after `push_front b` the next `pop` returns `b` and leaves exactly `q`; in
particular after `push_back a; push_front b` on an empty queue, `pop` returns
`b` first and `a` second. -/
theorem push_front_overtakes {α : Type} [Inhabited α] (q : TaskQueue α) (a b : α) :
    (q.push_front b).pop = (b, q)
      ∧ ((TaskQueue.empty.push_back a).push_front b).pop.1 = b
      ∧ ((TaskQueue.empty.push_back a).push_front b).pop.2.pop.1 = a
      ∧ ((TaskQueue.empty.push_back a).push_front b).pop.2.pop.2 = TaskQueue.empty :=
  ⟨rfl, rfl, rfl, rfl⟩

/-- C12.  `pop` is total: on an empty queue it returns the default-constructed
value (for `Task`, the value-initialised task) and leaves the queue empty; on a
queue whose contents are `x :: rest` it returns `x` and leaves exactly `rest`,
in the same order. -/
theorem pop_empty_or_front {α : Type} [Inhabited α] (x : α) (rest : List α) :
    (TaskQueue.pop ({ m_tasks := [] } : TaskQueue α)) = (default, { m_tasks := [] })
      ∧ (TaskQueue.pop ({ m_tasks := x :: rest } : TaskQueue α)) = (x, { m_tasks := rest })
      ∧ (TaskQueue.pop (TaskQueue.empty : TaskQueue Task)).1
          = { id := 0, source := TaskSource.SCHEDULER, action := TaskAction.REQUEST,
              type := TaskType.MACROTASK, callback_id := 0, is_promise := false,
              data := none }
      ∧ (TaskQueue.pop (TaskQueue.empty : TaskQueue Task)).2.isEmpty = true :=
  ⟨rfl, rfl, rfl, rfl⟩

/-! ## Task ids -/

theorem wrap64_succ (a : Int) : wrap64 (wrap64 a + 1) = wrap64 (a + 1) := by
  simp only [wrap64]
  omega

theorem wrap64_of_small (a : Int) (h0 : -(2 ^ 63) ≤ a) (h1 : a < 2 ^ 63) : wrap64 a = a := by
  simp only [wrap64]
  omega

theorem wrap64_succ_ne_self (a : Int) : wrap64 (a + 1) ≠ a := by
  simp only [wrap64]
  omega

theorem self_ne_wrap64_succ (a : Int) : a ≠ wrap64 (a + 1) :=
  fun h => wrap64_succ_ne_self a h.symm

theorem wrap64_zero : wrap64 0 = 0 := by
  simp only [wrap64]
  omega

theorem generate_ids_eq (n : Nat) (e : Engine) :
    (generate_ids n e).1 = ids_from e.counter n
      ∧ (generate_ids n e).2.counter = counter_after e.counter n := by
  induction n generalizing e with
  | zero => exact ⟨rfl, rfl⟩
  | succ k ih =>
    have := ih (generate_id e).2
    simp only [generate_ids, ids_from, counter_after]
    exact ⟨by rw [this.1]; rfl, by rw [this.2]; rfl⟩

theorem ids_from_closed (n : Nat) (c : Int) :
    ids_from (wrap64 c) n = (List.range n).map (fun (k : Nat) => wrap64 (c + (k : Int)))
      ∧ counter_after (wrap64 c) n = wrap64 (c + (n : Int)) := by
  induction n generalizing c with
  | zero => simp [ids_from, counter_after]
  | succ k ih =>
    have := ih (c + 1)
    simp only [ids_from, counter_after, wrap64_succ]
    rw [this.1, this.2, List.range_succ_eq_map]
    refine ⟨?_, by push_cast; congr 1; ring⟩
    simp only [List.map_cons, List.map_map, Nat.cast_zero, add_zero]
    congr 1
    apply List.map_congr_left
    intro j _
    simp only [Function.comp]
    push_cast
    congr 1
    ring

theorem ids_from_zero (n : Nat) :
    ids_from 0 n = (List.range n).map (fun (k : Nat) => wrap64 (k : Int))
      ∧ counter_after 0 n = wrap64 (n : Int) := by
  have := ids_from_closed n 0
  rw [wrap64_zero] at this
  simpa using this

theorem ids_from_add (a b : Nat) (c : Int) :
    ids_from c (a + b) = ids_from c a ++ ids_from (counter_after c a) b
      ∧ counter_after c (a + b) = counter_after (counter_after c a) b := by
  induction a generalizing c with
  | zero => simp [ids_from, counter_after]
  | succ k ih =>
    have := ih (wrap64 (c + 1))
    have hk : k + 1 + b = (k + b) + 1 := by omega
    rw [hk]
    simp only [ids_from, counter_after, List.cons_append]
    exact ⟨by rw [this.1], this.2⟩

theorem executeInstruction_ids (i : Instruction) (e : Engine) :
    queued_ids (executeInstruction i e)
        = queued_ids e ++ ids_from e.counter ([i].filter (fun i => i.is_api_request)).length
      ∧ (executeInstruction i e).counter
        = counter_after e.counter ([i].filter (fun i => i.is_api_request)).length := by
  cases h : i.is_api_request with
  | false =>
    rw [executeInstruction_unflagged i e h]
    simp [List.filter, h, ids_from, counter_after]
  | true =>
    rw [executeInstruction_flagged i e h]
    simp [List.filter, h, ids_from, counter_after, queued_ids, TaskQueue.push_back,
      api_request_task]

theorem foldl_executeInstruction_ids (is : List Instruction) (e : Engine) :
    queued_ids (is.foldl (fun acc i => executeInstruction i acc) e)
        = queued_ids e ++ ids_from e.counter (is.filter (fun i => i.is_api_request)).length
      ∧ (is.foldl (fun acc i => executeInstruction i acc) e).counter
        = counter_after e.counter (is.filter (fun i => i.is_api_request)).length := by
  induction is generalizing e with
  | nil => simp [ids_from, counter_after]
  | cons i rest ih =>
    have h1 := executeInstruction_ids i e
    have h2 := ih (executeInstruction i e)
    have hlen : ((i :: rest).filter (fun i => i.is_api_request)).length
        = ([i].filter (fun i => i.is_api_request)).length
          + (rest.filter (fun i => i.is_api_request)).length := by
      rw [← List.length_append, ← List.filter_append]
      rfl
    simp only [List.foldl_cons]
    rw [hlen, (ids_from_add _ _ _).1, (ids_from_add _ _ _).2, h2.1, h2.2, h1.1, h1.2,
      List.append_assoc]
    exact ⟨rfl, rfl⟩

theorem producer_run_ids (op : Producer) (e : Engine) :
    queued_ids (op.run e) = queued_ids e ++ ids_from e.counter op.created
      ∧ (op.run e).counter = counter_after e.counter op.created := by
  cases op with
  | interpret callback data =>
    exact foldl_executeInstruction_ids callback.instructions
      { e with calls := e.calls ++ [(callback, data)] }
  | fetchThen c1 c2 ty =>
    simp [Producer.run, Producer.created, simulateFetchThen, generate_id, queued_ids,
      TaskQueue.push_back, ids_from, counter_after]
  | domClick c =>
    simp [Producer.run, Producer.created, simulateDomClick, generate_id, queued_ids,
      TaskQueue.push_back, ids_from, counter_after]

theorem produce_all_ids (ops : List Producer) (e : Engine) :
    queued_ids (produce_all ops e) = queued_ids e ++ ids_from e.counter (created_total ops)
      ∧ (produce_all ops e).counter = counter_after e.counter (created_total ops) := by
  induction ops generalizing e with
  | nil => simp [produce_all, created_total, ids_from, counter_after]
  | cons op rest ih =>
    have h1 := producer_run_ids op e
    have h2 := ih (op.run e)
    simp only [produce_all, List.foldl_cons, created_total, List.map_cons, List.sum_cons]
      at h2 ⊢
    rw [(ids_from_add _ _ _).1, (ids_from_add _ _ _).2, h2.1, h2.2, h1.1, h1.2,
      List.append_assoc]
    exact ⟨rfl, rfl⟩

theorem wrapped_range_increasing (n : Nat) (hn : n ≤ 2 ^ 63) :
    ((List.range n).map (fun (k : Nat) => wrap64 (k : Int))).Pairwise (fun a b => a < b) := by
  rw [List.pairwise_map]
  refine List.Pairwise.imp_of_mem ?_ (List.pairwise_lt_range n)
  intro a b ha hb hab
  rw [List.mem_range] at ha hb
  rw [wrap64_of_small a (by omega) (by omega), wrap64_of_small b (by omega) (by omega)]
  exact_mod_cast hab

theorem wrapped_range_nodup (n : Nat) (hn : n ≤ 2 ^ 64) :
    ((List.range n).map (fun (k : Nat) => wrap64 (k : Int))).Nodup := by
  refine List.Nodup.map_on ?_ (List.nodup_range n)
  intro a ha b hb hab
  rw [List.mem_range] at ha hb
  simp only [wrap64] at hab
  omega

theorem wrapped_range_get (n k : Nat) (hk : k < n) :
    ((List.range n).map (fun (k : Nat) => wrap64 (k : Int)))[k]? = some (wrap64 (k : Int)) := by
  simp [List.getElem?_range hk]

theorem generate_ids_init (n : Nat) :
    (generate_ids n Engine.init).1 = (List.range n).map (fun (k : Nat) => wrap64 (k : Int)) :=
  ((generate_ids_eq n Engine.init).1).trans (ids_from_zero n).1

theorem generate_ids_init_get (n k : Nat) (hk : k < n) :
    (generate_ids n Engine.init).1[k]? = some (wrap64 (k : Int)) := by
  rw [generate_ids_init]
  exact wrapped_range_get n k hk

theorem pairwise_lt_getElem? (l : List Int) (h : l.Pairwise (fun a b => a < b))
    (i j : Nat) (a b : Int) (hij : i < j) (hi : l[i]? = some a) (hj : l[j]? = some b) :
    a < b := by
  rw [List.pairwise_iff_getElem] at h
  obtain ⟨hi1, hi2⟩ := List.getElem?_eq_some.mp hi
  obtain ⟨hj1, hj2⟩ := List.getElem?_eq_some.mp hj
  have := h i j hi1 hj1 hij
  rwa [hi2, hj2] at this

/-- C16, counterexample.  Counting calls from 0 on a counter that starts at
zero, call number 2^63 - 1 returns 2^63 - 1 and the next call returns -2^63:
the ids of 2^63 + 1 successive calls are not strictly increasing.  Call number
2^64 returns 0, as call number 0 did: the ids of 2^64 + 1 successive calls are
not pairwise distinct. -/
theorem generate_id_wraps_around :
    (generate_ids (2 ^ 63 + 1) Engine.init).1[2 ^ 63 - 1]? = some (2 ^ 63 - 1)
      ∧ (generate_ids (2 ^ 63 + 1) Engine.init).1[2 ^ 63]? = some (-(2 ^ 63))
      ∧ ¬ (generate_ids (2 ^ 63 + 1) Engine.init).1.Pairwise (fun a b => a < b)
      ∧ (generate_ids (2 ^ 64 + 1) Engine.init).1[0]? = some 0
      ∧ (generate_ids (2 ^ 64 + 1) Engine.init).1[2 ^ 64]? = some 0
      ∧ ¬ (generate_ids (2 ^ 64 + 1) Engine.init).1.Nodup := by
  have h1 : (generate_ids (2 ^ 63 + 1) Engine.init).1[2 ^ 63 - 1]? = some (2 ^ 63 - 1) := by
    rw [generate_ids_init_get _ _ (by omega)]
    simp only [wrap64]
    norm_num
  have h2 : (generate_ids (2 ^ 63 + 1) Engine.init).1[2 ^ 63]? = some (-(2 ^ 63)) := by
    rw [generate_ids_init_get _ _ (by omega)]
    simp only [wrap64]
    norm_num
  have h3 : (generate_ids (2 ^ 64 + 1) Engine.init).1[0]? = some 0 := by
    rw [generate_ids_init_get _ _ (by omega)]
    simp only [wrap64]
    norm_num
  have h4 : (generate_ids (2 ^ 64 + 1) Engine.init).1[2 ^ 64]? = some 0 := by
    rw [generate_ids_init_get _ _ (by omega)]
    simp only [wrap64]
    norm_num
  refine ⟨h1, h2, ?_, h3, h4, ?_⟩
  · intro hpw
    have := pairwise_lt_getElem? _ hpw (2 ^ 63 - 1) (2 ^ 63) _ _ (by omega) h1 h2
    omega
  · intro hnd
    rw [List.nodup_iff_getElem?_ne_getElem?] at hnd
    have hlen : (generate_ids (2 ^ 64 + 1) Engine.init).1.length = 2 ^ 64 + 1 := by
      rw [generate_ids_init]
      simp
    exact hnd 0 (2 ^ 64) (by omega) (by rw [hlen]; omega) (h3.trans h4.symm)

/-- C16, amended.  The counter starts at zero; `Task::generate_id` returns the
current counter value and advances the counter by one, wrapping from 2^63 - 1
to -2^63.  In a run of at most 2^63 calls the `k`-th call returns `k`, so the
ids are strictly increasing; in a run of at most 2^64 calls they are pairwise
distinct.  Every task created by `executeStackJS` and by the two simulators
takes its id from one such call: after any run of these producers from the
initial engine the ids of the created tasks are the ids of that many successive
calls, and they are pairwise distinct as long as at most 2^64 tasks are created. -/
theorem generate_id_distinct_until_wrap (e : Engine) (n : Nat) (ops : List Producer) :
    Engine.init.counter = 0
      ∧ (generate_id e).1 = e.counter
      ∧ (generate_id e).2.counter = wrap64 (e.counter + 1)
      ∧ (-(2 ^ 63) ≤ e.counter → e.counter + 1 < 2 ^ 63 →
          (generate_id e).2.counter = e.counter + 1)
      ∧ (n ≤ 2 ^ 63 →
          (generate_ids n Engine.init).1 = (List.range n).map (fun (k : Nat) => (k : Int))
            ∧ (generate_ids n Engine.init).1.Pairwise (fun a b => a < b))
      ∧ (n ≤ 2 ^ 64 → (generate_ids n Engine.init).1.Nodup)
      ∧ queued_ids (produce_all ops Engine.init)
          = (generate_ids (created_total ops) Engine.init).1
      ∧ (created_total ops ≤ 2 ^ 64 → (queued_ids (produce_all ops Engine.init)).Nodup) := by
  have hq : queued_ids (produce_all ops Engine.init)
      = (generate_ids (created_total ops) Engine.init).1 := by
    rw [(produce_all_ids ops Engine.init).1, (generate_ids_eq _ _).1]
    rfl
  refine ⟨rfl, rfl, rfl, ?_, ?_, ?_, hq, ?_⟩
  · intro h0 h1
    exact wrap64_of_small _ (by omega) h1
  · intro hn
    refine ⟨?_, ?_⟩
    · rw [generate_ids_init]
      apply List.map_congr_left
      intro k hk
      rw [List.mem_range] at hk
      exact wrap64_of_small _ (by omega) (by omega)
    · rw [generate_ids_init]
      exact wrapped_range_increasing n hn
  · intro hn
    rw [generate_ids_init]
    exact wrapped_range_nodup n hn
  · intro hn
    rw [hq, generate_ids_init]
    exact wrapped_range_nodup _ hn

theorem generate_id_distinct_until_wrap_witness :
    (-(2 ^ 63) ≤ Engine.init.counter ∧ Engine.init.counter + 1 < 2 ^ 63
        ∧ (generate_id Engine.init).2.counter = Engine.init.counter + 1)
      ∧ (3 ≤ 2 ^ 63
        ∧ (generate_ids 3 Engine.init).1 = (List.range 3).map (fun (k : Nat) => (k : Int))
        ∧ (generate_ids 3 Engine.init).1.Pairwise (fun a b => a < b))
      ∧ (created_total sampleProducers ≤ 2 ^ 64
        ∧ queued_ids (produce_all sampleProducers Engine.init) = [0, 1, 2, 3]
        ∧ (queued_ids (produce_all sampleProducers Engine.init)).Nodup) := by
  have h := generate_id_distinct_until_wrap Engine.init 3 sampleProducers
  have h0 : -(2 ^ 63) ≤ Engine.init.counter := by
    have : Engine.init.counter = 0 := rfl
    rw [this]
    norm_num
  have h1 : Engine.init.counter + 1 < 2 ^ 63 := by
    have : Engine.init.counter = 0 := rfl
    rw [this]
    norm_num
  have h3 : (3 : Nat) ≤ 2 ^ 63 := by norm_num
  have hc : created_total sampleProducers ≤ 2 ^ 64 := by
    have : created_total sampleProducers = 4 := rfl
    rw [this]
    norm_num
  exact ⟨⟨h0, h1, h.2.2.2.1 h0 h1⟩, ⟨h3, (h.2.2.2.2.1 h3).1, (h.2.2.2.2.1 h3).2⟩,
    hc, rfl, h.2.2.2.2.2.2.2 hc⟩

/-! ## Scenario S1: the chained promise -/

theorem chainFirstQueued_eq (h : ClosureHeap) (p : List (Int × Task)) (c : Int)
    (cs : List (Callback × Any)) (cf ci : Int) (ty : TaskType) :
    chainFirstQueued cf ci ty (idleEngine h p c cs) =
      { idleEngine h p c cs with
        closure_heap :=
          { m_callbacks :=
              mapAssign (mapAssign h.m_callbacks h.m_next_id (finalCallback h.m_next_id cf))
                (wrap64 (h.m_next_id + 1))
                (initialCallback (wrap64 (h.m_next_id + 1)) ci h.m_next_id)
            m_next_id := wrap64 (wrap64 (h.m_next_id + 1) + 1) }
        counter := wrap64 (c + 1)
        event_loop_microtask_queue :=
          { m_tasks := [firstPromiseTask c ty (wrap64 (h.m_next_id + 1))] } } := by
  simp [chainFirstQueued, scheduler_drain_eq, simulateFetchThen, idleEngine, generate_id,
    TaskQueue.push_back, TaskQueue.empty, toMicrotask, toMacrotask, toApiManager,
    ClosureHeap.register_callback, finalCallback, initialCallback, firstPromiseTask]

theorem chainFirstTick_eq (h : ClosureHeap) (p : List (Int × Task)) (c : Int)
    (cs : List (Callback × Any)) (cf ci : Int) (ty : TaskType) :
    event_loop_tick (chainFirstQueued cf ci ty (idleEngine h p c cs)) =
      Outcome.running
        { idleEngine h p c cs with
          closure_heap :=
            { m_callbacks :=
                mapAssign (mapAssign h.m_callbacks h.m_next_id (finalCallback h.m_next_id cf))
                  (wrap64 (h.m_next_id + 1))
                (initialCallback (wrap64 (h.m_next_id + 1)) ci h.m_next_id)
              m_next_id := wrap64 (wrap64 (h.m_next_id + 1) + 1) }
          counter := wrap64 (wrap64 (c + 1) + 1)
          scheduler_queue :=
            { m_tasks := [{ id := wrap64 (c + 1), source := TaskSource.EVENT_LOOP,
                            action := TaskAction.REQUEST, type := TaskType.MICROTASK,
                            callback_id := h.m_next_id, is_promise := true,
                            data := some "api/user/details" }] }
          calls := cs ++ [(initialCallback (wrap64 (h.m_next_id + 1)) ci h.m_next_id,
                           some "Initial API response data")] } := by
  rw [chainFirstQueued_eq]
  simp [event_loop_tick, event_loop_macrotask_phase, event_loop_microtask_loop,
    TaskQueue.isEmpty, TaskQueue.pop, run_callback, ClosureHeap.get, idleEngine,
    TaskQueue.empty, mapFind_assign, wrap64_succ_ne_self, self_ne_wrap64_succ, executeStackJS, executeInstruction, generate_id,
    api_request_task, TaskQueue.push_back, finalCallback, initialCallback, firstPromiseTask]

theorem chainSecondQueued_eq (h : ClosureHeap) (p : List (Int × Task)) (c : Int)
    (cs : List (Callback × Any)) (cf ci : Int) (ty : TaskType) :
    chainSecondQueued cf ci ty (idleEngine h p c cs) =
      { idleEngine h p c cs with
        closure_heap :=
          { m_callbacks :=
              mapAssign (mapAssign h.m_callbacks h.m_next_id (finalCallback h.m_next_id cf))
                (wrap64 (h.m_next_id + 1))
                (initialCallback (wrap64 (h.m_next_id + 1)) ci h.m_next_id)
            m_next_id := wrap64 (wrap64 (h.m_next_id + 1) + 1) }
        counter := wrap64 (wrap64 (c + 1) + 1)
        pending_api_tasks :=
          mapErase
            (mapAssign p (wrap64 (c + 1))
              { id := wrap64 (c + 1), source := TaskSource.EVENT_LOOP,
                action := TaskAction.REQUEST, type := TaskType.MICROTASK,
                callback_id := h.m_next_id, is_promise := true,
                data := some "api/user/details" })
            (wrap64 (c + 1))
        event_loop_microtask_queue :=
          { m_tasks := [secondPromiseTask (wrap64 (c + 1)) h.m_next_id] }
        calls := cs ++ [(initialCallback (wrap64 (h.m_next_id + 1)) ci h.m_next_id,
                         some "Initial API response data")] } := by
  simp only [chainSecondQueued]
  rw [chainFirstTick_eq]
  simp [Outcome.engine, scheduler_drain_eq, idleEngine, TaskQueue.empty, toMicrotask,
    toMacrotask, toApiManager, api_manager_request_phase, api_manager_request_loop,
    api_manager_request_step, TaskQueue.isEmpty, TaskQueue.pop, sendAPIRequest,
    worker_finish, api_worker, TaskQueue.push_back, api_manager_completion_phase,
    api_manager_completion_loop, api_manager_completion_step, mapFind_assign,
    completed_task, TaskQueue.push_front, secondPromiseTask]

theorem chainSecondTick_eq (h : ClosureHeap) (p : List (Int × Task)) (c : Int)
    (cs : List (Callback × Any)) (cf ci : Int) (ty : TaskType) :
    event_loop_tick (chainSecondQueued cf ci ty (idleEngine h p c cs)) =
      Outcome.running
        { idleEngine h p c cs with
          closure_heap :=
            { m_callbacks :=
                mapAssign (mapAssign h.m_callbacks h.m_next_id (finalCallback h.m_next_id cf))
                  (wrap64 (h.m_next_id + 1))
                (initialCallback (wrap64 (h.m_next_id + 1)) ci h.m_next_id)
              m_next_id := wrap64 (wrap64 (h.m_next_id + 1) + 1) }
          counter := wrap64 (wrap64 (c + 1) + 1)
          pending_api_tasks :=
            mapErase
              (mapAssign p (wrap64 (c + 1))
                { id := wrap64 (c + 1), source := TaskSource.EVENT_LOOP,
                  action := TaskAction.REQUEST, type := TaskType.MICROTASK,
                  callback_id := h.m_next_id, is_promise := true,
                  data := some "api/user/details" })
              (wrap64 (c + 1))
          calls := cs ++ [(initialCallback (wrap64 (h.m_next_id + 1)) ci h.m_next_id,
                           some "Initial API response data"),
                          (finalCallback h.m_next_id cf,
                           some "\x7b\"message\":\"API data received successfully\"\x7d")] } := by
  rw [chainSecondQueued_eq]
  simp [event_loop_tick, event_loop_macrotask_phase, event_loop_microtask_loop,
    TaskQueue.isEmpty, TaskQueue.pop, run_callback, ClosureHeap.get, idleEngine,
    TaskQueue.empty, mapFind_assign, wrap64_succ_ne_self, self_ne_wrap64_succ, executeStackJS, executeInstruction,
    finalCallback, initialCallback, secondPromiseTask]

/-- C17 (scenario S1).  From any idle engine, `simulateFetchThen` followed by
Scheduler drain, EventLoop tick, Scheduler drain, ApiManager request phase,
worker completion, ApiManager completion phase, Scheduler drain and EventLoop
tick runs without error.  Before the first tick the injected task stands alone
in the microtask queue and the macrotask queue is empty; the first tick invokes
the interpreter once, on the initial callback with the injected data.  Before
the second tick the re-hydrated response stands alone in the microtask queue
and the macrotask queue is empty; the second tick invokes the interpreter once,
on the final callback with the worker's data.  So the record of invocations
grows by exactly these two, initial first and final second, and every queue is
empty at the end. -/
theorem chained_promise_scenario (h : ClosureHeap) (p : List (Int × Task)) (c : Int)
    (cs : List (Callback × Any)) (cf ci : Int) (ty : TaskType) :
    (chainFirstQueued cf ci ty (idleEngine h p c cs)).event_loop_microtask_queue.m_tasks
        = [firstPromiseTask c ty (wrap64 (h.m_next_id + 1))]
      ∧ (chainFirstQueued cf ci ty (idleEngine h p c cs)).event_loop_macrotask_queue.m_tasks
        = []
      ∧ (chainFirstQueued cf ci ty (idleEngine h p c cs)).closure_heap.get
          (wrap64 (h.m_next_id + 1))
        = Except.ok (initialCallback (wrap64 (h.m_next_id + 1)) ci h.m_next_id)
      ∧ (chainFirstQueued cf ci ty (idleEngine h p c cs)).closure_heap.get h.m_next_id
        = Except.ok (finalCallback h.m_next_id cf)
      ∧ (∃ s, event_loop_tick (chainFirstQueued cf ci ty (idleEngine h p c cs))
            = Outcome.running s
          ∧ s.calls = cs ++ [(initialCallback (wrap64 (h.m_next_id + 1)) ci h.m_next_id,
                              some "Initial API response data")]
          ∧ s.event_loop_microtask_queue.m_tasks = []
          ∧ s.event_loop_macrotask_queue.m_tasks = [])
      ∧ (chainSecondQueued cf ci ty (idleEngine h p c cs)).event_loop_microtask_queue.m_tasks
        = [secondPromiseTask (wrap64 (c + 1)) h.m_next_id]
      ∧ (chainSecondQueued cf ci ty (idleEngine h p c cs)).event_loop_macrotask_queue.m_tasks
        = []
      ∧ (∃ s, event_loop_tick (chainSecondQueued cf ci ty (idleEngine h p c cs))
            = Outcome.running s
          ∧ s.calls = cs ++ [(initialCallback (wrap64 (h.m_next_id + 1)) ci h.m_next_id,
                              some "Initial API response data"),
                             (finalCallback h.m_next_id cf,
                              some "\x7b\"message\":\"API data received successfully\"\x7d")]
          ∧ s.event_loop_microtask_queue.m_tasks = []
          ∧ s.event_loop_macrotask_queue.m_tasks = []
          ∧ s.scheduler_queue.m_tasks = []
          ∧ s.api_manager_request_queue.m_tasks = []
          ∧ s.api_manager_response_queue.m_tasks = []
          ∧ s.workers = []) := by
  refine ⟨?_, ?_, ?_, ?_, ⟨_, chainFirstTick_eq h p c cs cf ci ty, ?_⟩, ?_, ?_,
    ⟨_, chainSecondTick_eq h p c cs cf ci ty, ?_⟩⟩
  · rw [chainFirstQueued_eq]
  · rw [chainFirstQueued_eq]
    rfl
  · rw [chainFirstQueued_eq]
    simp [ClosureHeap.get, mapFind_assign, wrap64_succ_ne_self, self_ne_wrap64_succ]
  · rw [chainFirstQueued_eq]
    simp [ClosureHeap.get, mapFind_assign, wrap64_succ_ne_self, self_ne_wrap64_succ]
  · exact ⟨rfl, rfl, rfl⟩
  · rw [chainSecondQueued_eq]
  · rw [chainSecondQueued_eq]
    rfl
  · exact ⟨rfl, rfl, rfl, rfl, rfl, rfl, rfl⟩

/-! ## Promise completions are reversed -/

theorem completion_loop_promises (ps : List (Task × ApiResponse)) (e : Engine)
    (hq : e.api_manager_response_queue.m_tasks = ps.map (fun p => p.2))
    (hprom : ∀ p ∈ ps, p.1.is_promise = true)
    (hid : ∀ p ∈ ps, p.2.task_id = p.1.id)
    (hfind : ∀ p ∈ ps, mapFind e.pending_api_tasks p.1.id = some p.1)
    (hnodup : (ps.map (fun p => p.1.id)).Nodup) :
    api_manager_completion_loop ps.length e =
      { e with
        api_manager_response_queue := { m_tasks := [] }
        pending_api_tasks := ps.foldl (fun m p => mapErase m p.2.task_id) e.pending_api_tasks
        scheduler_queue :=
          { m_tasks := (ps.map (fun p => completed_task p.1 p.2)).reverse
              ++ e.scheduler_queue.m_tasks } } := by
  induction ps generalizing e with
  | nil =>
    obtain ⟨heap, ⟨sq⟩, rq, ⟨respq⟩, maq, miq, pend, c, w, cl⟩ := e
    simp only [List.map_nil] at hq
    subst hq
    simp [api_manager_completion_loop]
  | cons first rest ih =>
    obtain ⟨t, r⟩ := first
    have hq2 : e.api_manager_response_queue.m_tasks = r :: rest.map (fun p => p.2) := by
      simpa using hq
    have hr : r.task_id = t.id := hid (t, r) (by simp)
    have hp : mapFind e.pending_api_tasks r.task_id = some t := by
      rw [hr]
      exact hfind (t, r) (by simp)
    have htp : t.is_promise = true := hprom (t, r) (by simp)
    simp only [List.map_cons, List.nodup_cons] at hnodup
    simp only [List.length_cons]
    rw [completion_loop_succ_cons _ e r _ hq2, completion_step_found e r _ t hq2 hp]
    rw [ih _ rfl (fun q hq => hprom q (by simp [hq])) (fun q hq => hid q (by simp [hq]))
      ?_ hnodup.2]
    · simp [htp, TaskQueue.push_front]
    · intro q hq
      have hne : q.1.id ≠ r.task_id := by
        rw [hr]
        intro heq
        exact hnodup.1 (heq ▸ List.mem_map_of_mem (fun p => p.1.id) hq)
      simp only [mapFind_erase, hne, if_false]
      exact hfind q (by simp [hq])

/-- C20.  Let the response queue hold, in arrival order, the responses for
pending promise tasks with pairwise distinct ids.  One completion phase puts
the completed tasks at the front of the Scheduler queue in the reverse of the
arrival order (for two tasks `t1`, `t2`: `t2` ahead of `t1`).  When the
Scheduler queue and the EventLoop queues were empty, the following Scheduler
drain leaves exactly these tasks in the microtask queue, in that reversed
order, and nothing in the macrotask queue, and the following tick invokes the
interpreter on their callbacks in that reversed order. -/
theorem promise_completions_reversed (e : Engine) (ps : List (Task × ApiResponse))
    (hq : e.api_manager_response_queue.m_tasks = ps.map (fun p => p.2))
    (hprom : ∀ p ∈ ps, p.1.is_promise = true)
    (hid : ∀ p ∈ ps, p.2.task_id = p.1.id)
    (hfind : ∀ p ∈ ps, mapFind e.pending_api_tasks p.1.id = some p.1)
    (hnodup : (ps.map (fun p => p.1.id)).Nodup)
    (hreg : ∀ p ∈ ps, Registered e.closure_heap p.1) :
    (api_manager_completion_phase e).scheduler_queue.m_tasks
        = (ps.map (fun p => completed_task p.1 p.2)).reverse ++ e.scheduler_queue.m_tasks
      ∧ (∀ t1 r1 t2 r2, ps = [(t1, r1), (t2, r2)] →
          (api_manager_completion_phase e).scheduler_queue.m_tasks
            = completed_task t2 r2 :: completed_task t1 r1 :: e.scheduler_queue.m_tasks)
      ∧ (e.scheduler_queue.m_tasks = [] → e.event_loop_macrotask_queue.m_tasks = [] →
          e.event_loop_microtask_queue.m_tasks = [] →
          (scheduler_drain (api_manager_completion_phase e)).event_loop_microtask_queue.m_tasks
              = (ps.map (fun p => completed_task p.1 p.2)).reverse
            ∧ (scheduler_drain
                (api_manager_completion_phase e)).event_loop_macrotask_queue.m_tasks = []
            ∧ ∃ s newcalls,
                event_loop_tick (scheduler_drain (api_manager_completion_phase e))
                    = Outcome.running s
                  ∧ s.calls = e.calls ++ newcalls
                  ∧ List.Forall₂ (CallFor e.closure_heap)
                      (ps.map (fun p => completed_task p.1 p.2)).reverse newcalls) := by
  have hphase : api_manager_completion_phase e =
      { e with
        api_manager_response_queue := { m_tasks := [] }
        pending_api_tasks := ps.foldl (fun m p => mapErase m p.2.task_id) e.pending_api_tasks
        scheduler_queue :=
          { m_tasks := (ps.map (fun p => completed_task p.1 p.2)).reverse
              ++ e.scheduler_queue.m_tasks } } := by
    have hlen : e.api_manager_response_queue.m_tasks.length = ps.length := by
      rw [hq]
      simp
    simp only [api_manager_completion_phase, hlen]
    exact completion_loop_promises ps e hq hprom hid hfind hnodup
  have hsched : (api_manager_completion_phase e).scheduler_queue.m_tasks
      = (ps.map (fun p => completed_task p.1 p.2)).reverse ++ e.scheduler_queue.m_tasks := by
    rw [hphase]
  refine ⟨hsched, ?_, ?_⟩
  · intro t1 r1 t2 r2 hps
    rw [hsched, hps]
    simp
  · intro h1 h2 h3
    have hmicro : ∀ t ∈ (ps.map (fun p => completed_task p.1 p.2)).reverse,
        toMicrotask t = true := by
      intro t ht
      simp only [List.mem_reverse, List.mem_map] at ht
      obtain ⟨q, hq1, rfl⟩ := ht
      simp [toMicrotask, completed_task, hprom q hq1]
    have hmac : ∀ t ∈ (ps.map (fun p => completed_task p.1 p.2)).reverse,
        ¬ toMacrotask t = true := by
      intro t ht
      simp only [List.mem_reverse, List.mem_map] at ht
      obtain ⟨q, hq1, rfl⟩ := ht
      simp [toMacrotask, completed_task, hprom q hq1]
    have hd1 : (scheduler_drain
        (api_manager_completion_phase e)).event_loop_microtask_queue.m_tasks
        = (ps.map (fun p => completed_task p.1 p.2)).reverse := by
      rw [scheduler_drain_eq, hphase]
      simp only [h1, h3, List.append_nil, List.nil_append]
      exact List.filter_eq_self.mpr hmicro
    have hd2 : (scheduler_drain
        (api_manager_completion_phase e)).event_loop_macrotask_queue.m_tasks = [] := by
      rw [scheduler_drain_eq, hphase]
      simp only [h1, h2, List.append_nil, List.nil_append]
      exact List.filter_eq_nil_iff.mpr hmac
    have hheap : (scheduler_drain (api_manager_completion_phase e)).closure_heap
        = e.closure_heap := by
      rw [scheduler_drain_eq, hphase]
    have hcalls : (scheduler_drain (api_manager_completion_phase e)).calls = e.calls := by
      rw [scheduler_drain_eq, hphase]
    obtain ⟨s, newcalls, g1, _, _, _, g5, g6⟩ :=
      tick_all (scheduler_drain (api_manager_completion_phase e))
        (by rw [hd2]; intro t ht; cases ht)
        (by
          rw [hd1, hheap]
          intro t ht
          simp only [List.mem_reverse, List.mem_map] at ht
          obtain ⟨q, hq1, rfl⟩ := ht
          exact hreg q hq1)
    refine ⟨hd1, hd2, s, newcalls, g1, by rw [g5, hcalls], ?_⟩
    simpa [tickTasks, hd1, hd2, hheap] using g6

theorem promise_completions_reversed_witness :
    twoResponsesWaiting.api_manager_response_queue.m_tasks
        = [(detailsTask, detailsResponse), (laterTask, laterResponse)].map (fun p => p.2)
      ∧ (api_manager_completion_phase twoResponsesWaiting).scheduler_queue.m_tasks
          = completed_task laterTask laterResponse
              :: completed_task detailsTask detailsResponse
              :: twoResponsesWaiting.scheduler_queue.m_tasks
      ∧ (scheduler_drain
          (api_manager_completion_phase twoResponsesWaiting)).event_loop_microtask_queue.m_tasks
          = [completed_task laterTask laterResponse,
             completed_task detailsTask detailsResponse] := by
  have hreg : ∀ p ∈ [(detailsTask, detailsResponse), (laterTask, laterResponse)],
      Registered twoResponsesWaiting.closure_heap p.1 := by
    intro p hp
    simp only [List.mem_cons, List.mem_singleton, List.not_mem_nil, or_false] at hp
    rcases hp with rfl | rfl
    · exact ⟨_, rfl⟩
    · exact ⟨_, rfl⟩
  have h := promise_completions_reversed twoResponsesWaiting
    [(detailsTask, detailsResponse), (laterTask, laterResponse)] rfl (by decide) (by decide)
    (by decide) (by decide) hreg
  exact ⟨rfl, h.2.1 _ _ _ _ rfl, (h.2.2 rfl rfl rfl).1⟩

/-! ## The Alarm under interleaving -/

theorem wait_returns_only_when_true (s : AlarmRun)
    (h0 : s.waiter ≠ WaitPoint.returned)
    (h1 : (waiter_step s).waiter = WaitPoint.returned) :
    s.waiter = WaitPoint.testing ∧ wakeup_condition s = true := by
  cases hw : s.waiter with
  | testing =>
    cases hc : wakeup_condition s with
    | true => exact ⟨rfl, rfl⟩
    | false => simp [waiter_step, hw, hc] at h1
  | parking => simp [waiter_step, hw] at h1
  | blocked => simp [waiter_step, hw] at h1
  | returned => exact absurd hw h0

theorem wait_returns_at_once_when_true (s : AlarmRun)
    (h0 : s.waiter = WaitPoint.testing) (h1 : wakeup_condition s = true) :
    waiter_step s = { s with waiter := WaitPoint.returned } := by
  simp [waiter_step, h0, h1]

theorem notify_wakes_blocked (item : Task) (s : AlarmRun)
    (h0 : s.waiter = WaitPoint.blocked) (h1 : s.producer = NotifyPoint.notifying)
    (h2 : wakeup_condition s = true) :
    (alarm_run item [Thread.producer, Thread.waiter] s).waiter = WaitPoint.returned := by
  have hq : wakeup_condition
      { queue := s.queue, waiter := WaitPoint.testing, producer := NotifyPoint.finished }
        = true := h2
  simp [alarm_run, alarm_step, producer_step, alarm_notify, waiter_step, h0, h1, hq]

theorem stuck_forever (item : Task) (schedule : List Thread) (s : AlarmRun)
    (h0 : s.waiter = WaitPoint.blocked) (h1 : s.producer = NotifyPoint.finished) :
    alarm_run item schedule s = s := by
  induction schedule with
  | nil => rfl
  | cons who rest ih =>
    have hstep : alarm_step item who s = s := by
      cases who with
      | waiter => simp [alarm_step, waiter_step, h0]
      | producer => simp [alarm_step, producer_step, h1]
    simp only [alarm_run, List.foldl_cons, hstep]
    exact ih

/-- C19, the code on the failing interleaving.  A thread enters `Alarm::wait`
on an empty queue and finds the predicate false; before it blocks, the producer
pushes a task and calls `notify`, which finds no blocked thread and does
nothing; the thread then blocks.  In the state reached the predicate is true,
the producer has finished, and the waiting thread is blocked; whatever the
further schedule of the two threads, the state never changes, so `wait` never
returns: the wake-up is lost. -/
theorem alarm_loses_wakeup (item : Task) (schedule : List Thread) :
    alarm_run item lostWakeupSchedule alarmStart
        = { queue := { m_tasks := [item] }, waiter := WaitPoint.blocked,
            producer := NotifyPoint.finished }
      ∧ wakeup_condition (alarm_run item lostWakeupSchedule alarmStart) = true
      ∧ alarm_run item schedule (alarm_run item lostWakeupSchedule alarmStart)
          = alarm_run item lostWakeupSchedule alarmStart
      ∧ (alarm_run item schedule
          (alarm_run item lostWakeupSchedule alarmStart)).waiter = WaitPoint.blocked := by
  have h1 : alarm_run item lostWakeupSchedule alarmStart
      = { queue := { m_tasks := [item] }, waiter := WaitPoint.blocked,
          producer := NotifyPoint.finished } := rfl
  have h3 := stuck_forever item schedule (alarm_run item lostWakeupSchedule alarmStart)
    (by rw [h1]) (by rw [h1])
  refine ⟨h1, by rw [h1]; rfl, h3, by rw [h3, h1]⟩

/-! ## A registered task that is never interpreted -/

/-- C18, the code on a failing run.  Every injected task refers to a
registered callback: first one whose callback requests an API call without
`then` callback, later the chained-promise task of `simulateFetchThen`.  When
the response to the former (with `callback_id = -1`) is popped, `get` throws
and the EventLoop ends; the later task is still in the microtask queue, the
interpreter has not been invoked on its callback, and no tick follows. -/
theorem registered_task_starves_after_crash :
    injectedBehindSentinel.event_loop_microtask_queue.m_tasks
        = [{ id := 1, source := TaskSource.API_WORKER, action := TaskAction.REQUEST,
             type := TaskType.MICROTASK, callback_id := -1, is_promise := true,
             data := some "\x7b\"message\":\"API data received successfully\"\x7d" },
           firstPromiseTask 2 TaskType.MICROTASK 2]
      ∧ injectedBehindSentinel.closure_heap.get 2 = Except.ok (initialCallback 2 32 1)
      ∧ event_loop_tick injectedBehindSentinel
          = Outcome.terminated "Callback ID not found: -1"
              { injectedBehindSentinel with
                event_loop_microtask_queue :=
                  { m_tasks := [firstPromiseTask 2 TaskType.MICROTASK 2] } }
      ∧ (event_loop_tick injectedBehindSentinel).engine.calls
          = [({ id := 0, associated_closure := 1, instructions := [pingWithoutThen] },
              some "Initial API response data")] := by
  refine ⟨by rfl, by rfl, by rfl, by rfl⟩

/-! ## Properties of the ClosureHeap -/

end JSEngine
